import Mathlib

/-!
# Verification of the VoiceStressEngine core

A shallow embedding of the `VoiceStressEngine` class (real-time voice stress
analysis: ring-buffer ingestion, voice-activity detection, autocorrelation
pitch tracking, jitter/shimmer, spectral features, micro-tremor FFT analysis,
quick and full composite scoring).  JavaScript floating-point numbers are
modelled as real numbers; the mutable session object is modelled as an
explicit `EngineState` record threaded through pure update functions.  The
engine is modelled in its active configuration (`isActive = true`, analyser
attached), with each analysis tick supplying the time-domain window and the
dB magnitude spectrum as an `AnalysisFrame`.
-/

noncomputable section

open scoped BigOperators

/-! ## Configuration constants (constructor values) -/

/-- `this.sampleRate` default (48 kHz). -/
def sampleRate : ℕ := 48000

/-- `this.fftSize`. -/
def fftSize : ℕ := 2048

/-- `this.ringBufferSize` (2 seconds at 48 kHz). -/
def ringBufferSize : ℕ := 96000

/-- `this.F0_MIN`. -/
def F0_MIN : ℕ := 75

/-- `this.F0_MAX`. -/
def F0_MAX : ℕ := 400

/-- `this.VAD_THRESHOLD`. -/
def VAD_THRESHOLD : ℝ := 0.015

/-- `this.TREMOR_BAND_LOW` (Hz). -/
def TREMOR_BAND_LOW : ℕ := 8

/-- `this.TREMOR_BAND_HIGH` (Hz). -/
def TREMOR_BAND_HIGH : ℕ := 12

/-- `this.BASELINE_SPEECH_FRAMES`. -/
def BASELINE_SPEECH_FRAMES : ℕ := 150

/-- `this.timelineWindowFrames`. -/
def timelineWindowFrames : ℕ := 30

/-! ## Data model -/

/-- An entry of `this.f0History`: `{ time, f0, amplitude }`. -/
structure F0Sample where
  time : ℕ
  f0 : ℝ
  amplitude : ℝ

/-- An entry of `this.spectralHistory` (result of `_analyzeSpectralFeatures`). -/
structure SpectralSnapshot where
  centroid : ℝ
  lowRatio : ℝ
  midRatio : ℝ
  highRatio : ℝ
  hammarberg : ℝ

/-- The value of `this.f0Baseline` once established. -/
structure Baseline where
  meanF0 : ℝ
  sdF0 : ℝ

/-- The value of `this.spectralBaseline` once established. -/
structure SpectralBaseline where
  centroid : ℝ
  hammarberg : ℝ

/-- The plain result object of `_analyzeMicroTremor`. -/
structure TremorResult where
  energyRatio : ℝ
  peakFreq : ℝ
  bandEnergy : ℝ
  totalEnergy : ℝ

/-- An entry of `this.tremorHistory`: `{ time, ...tremor }`. -/
structure TremorEntry where
  time : ℕ
  energyRatio : ℝ
  peakFreq : ℝ
  bandEnergy : ℝ
  totalEnergy : ℝ

/-- An entry of `this.vsaTimeline`. -/
structure TimelineEntry where
  timeSeconds : ℤ
  voiceStress : ℝ
  f0 : ℝ
  isSpeaking : Bool

/-- One analysis tick of input: the time-domain window
(`getFloatTimeDomainData`) and the dB magnitude spectrum
(`getFloatFrequencyData`). -/
structure AnalysisFrame where
  timeDomain : List ℝ
  frequency : List ℝ

/-- The mutable session state of a `VoiceStressEngine` instance. -/
structure EngineState where
  ringBuffer : List ℝ
  ringBufferWritePos : ℕ
  ringBufferFilled : Bool
  isSpeechActive : Bool
  speechFrameCount : ℕ
  silenceFrameCount : ℕ
  totalFrameCount : ℕ
  silencePauses : ℕ
  inSilencePause : Bool
  pauseDurations : List ℤ
  currentPauseStart : ℕ
  f0History : List F0Sample
  f0Baseline : Option Baseline
  baselineF0Values : List ℝ
  baselineEstablished : Bool
  pitchPeriods : List ℝ
  cycleAmplitudes : List ℝ
  spectralHistory : List SpectralSnapshot
  spectralBaseline : Option SpectralBaseline
  tremorHistory : List TremorEntry
  vsaTimeline : List TimelineEntry

/-- The state right after `_allocateBuffers` / `clearAll`: all histories
empty, counters zero, the ring buffer zero-filled with the write cursor at
the start. -/
def initState : EngineState where
  ringBuffer := List.replicate ringBufferSize 0
  ringBufferWritePos := 0
  ringBufferFilled := false
  isSpeechActive := false
  speechFrameCount := 0
  silenceFrameCount := 0
  totalFrameCount := 0
  silencePauses := 0
  inSilencePause := false
  pauseDurations := []
  currentPauseStart := 0
  f0History := []
  f0Baseline := none
  baselineF0Values := []
  baselineEstablished := false
  pitchPeriods := []
  cycleAmplitudes := []
  spectralHistory := []
  spectralBaseline := none
  tremorHistory := []
  vsaTimeline := []

/-! ## Ring buffer (`_fillRingBuffer`) -/

/-- One iteration of the loop body of `_fillRingBuffer`: write the sample at
the cursor, advance the cursor, wrap (setting the `filled` flag) when the
cursor reaches the capacity. -/
def fillOne (st : EngineState) (x : ℝ) : EngineState :=
  let buf := st.ringBuffer.set st.ringBufferWritePos x
  let pos := st.ringBufferWritePos + 1
  if ringBufferSize ≤ pos then
    { st with ringBuffer := buf, ringBufferWritePos := 0, ringBufferFilled := true }
  else
    { st with ringBuffer := buf, ringBufferWritePos := pos }

/-- `_fillRingBuffer(samples)`. -/
def fillRingBuffer (samples : List ℝ) (st : EngineState) : EngineState :=
  samples.foldl fillOne st

/-- The helper `push` in JS (`push` then conditional `shift`): append an
element to a history, evicting the oldest entry once the cap is exceeded. -/
def capPush {α : Type} (cap : ℕ) (l : List α) (x : α) : List α :=
  let l' := l ++ [x]
  if cap < l'.length then l'.drop 1 else l'

/-! ## Utility methods -/

/-- `_computeRMS(buffer)`. -/
def computeRMS (buffer : List ℝ) : ℝ :=
  Real.sqrt ((∑ i ∈ Finset.range buffer.length,
    buffer.getD i 0 * buffer.getD i 0) / (buffer.length : ℝ))

/-- `_hannWindow(buffer)`. -/
def hannWindow (buffer : List ℝ) : List ℝ :=
  (List.range buffer.length).map fun i =>
    buffer.getD i 0 *
      (0.5 * (1 - Real.cos (2 * Real.pi * (i : ℝ) / ((buffer.length : ℝ) - 1))))

/-- `_nextPowerOf2(n)`: the loop `p = 1; while (p < n) p <<= 1` returns the
least power of two that is at least `n` (and at least `1`). -/
def nextPowerOf2 (n : ℕ) : ℕ := 2 ^ Nat.clog 2 n

/-- `Math.max(...l)` for a nonempty list (guarded at every use site). -/
def listMax (l : List ℝ) : ℝ := l.foldl max (l.headD 0)

/-- `Math.min(...l)` for a nonempty list (guarded at every use site). -/
def listMin (l : List ℝ) : ℝ := l.foldl min (l.headD 0)

/-! ## Voice activity detection (`_detectVoiceActivity`) -/

/-- The zero-crossing count of `_detectVoiceActivity`: positions
`1 ≤ i < length` where the sign-bit test `(buf[i] >= 0) !== (buf[i-1] >= 0)`
holds. -/
def zeroCrossings (buffer : List ℝ) : ℕ :=
  ((Finset.Ico 1 buffer.length).filter fun i =>
    ¬((0 ≤ buffer.getD i 0) ↔ (0 ≤ buffer.getD (i - 1) 0))).card

/-- The zero-crossing rate `zcr / buffer.length`. -/
def zcrRateOf (buffer : List ℝ) : ℝ :=
  (zeroCrossings buffer : ℝ) / (buffer.length : ℝ)

/-- `_detectVoiceActivity()`, reading the current time-domain window. -/
def detectVoiceActivity (buffer : List ℝ) : Bool :=
  let rms := computeRMS buffer
  if rms < VAD_THRESHOLD then false
  else
    let zcrRate := zcrRateOf buffer
    decide (VAD_THRESHOLD ≤ rms) && decide (0.02 < zcrRate) && decide (zcrRate < 0.5)

/-! ## Pitch tracking (`_trackFundamentalFrequency`) -/

/-- `_normalizedCorrelation(buffer, lag)`. -/
def normalizedCorrelation (buffer : List ℝ) (lag : ℕ) : ℝ :=
  let size := buffer.length
  let correlation := ∑ j ∈ Finset.range (size - lag),
    buffer.getD j 0 * buffer.getD (j + lag) 0
  let e1 := ∑ j ∈ Finset.range (size - lag), buffer.getD j 0 * buffer.getD j 0
  let e2 := ∑ j ∈ Finset.range (size - lag),
    buffer.getD (j + lag) 0 * buffer.getD (j + lag) 0
  let denom := Real.sqrt (e1 * e2)
  if 0 < denom then correlation / denom else 0

/-- The candidate-lag loop of `_trackFundamentalFrequency`: for each lag in
`[minLag, maxLag]` (bounded by the window size), compute the normalized
autocorrelation and keep the best value exceeding `0.4`.  Returns
`(bestVal, bestLag)`, initialized to `(-1, -1)`. -/
def bestLagSearch (windowed : List ℝ) (minLag maxLag : ℕ) : ℝ × ℤ :=
  (List.range' minLag (min (maxLag + 1) windowed.length - minLag)).foldl
    (fun best lag =>
      let size := windowed.length
      let correlation := ∑ j ∈ Finset.range (size - lag),
        windowed.getD j 0 * windowed.getD (j + lag) 0
      let e1 := ∑ j ∈ Finset.range (size - lag),
        windowed.getD j 0 * windowed.getD j 0
      let e2 := ∑ j ∈ Finset.range (size - lag),
        windowed.getD (j + lag) 0 * windowed.getD (j + lag) 0
      let denom := Real.sqrt (e1 * e2)
      if denom < 0.001 then best
      else
        let norm := correlation / denom
        if best.1 < norm ∧ 0.4 < norm then (norm, (lag : ℤ)) else best)
    (-1, -1)

/-- `_trackFundamentalFrequency()`: Hann window, silence guard, normalized
autocorrelation search, parabolic refinement, range check; `-1` is the
"no detection" sentinel. -/
def trackFundamentalFrequency (buffer : List ℝ) : ℝ :=
  let windowed := hannWindow buffer
  let size := windowed.length
  let minLag := sampleRate / F0_MAX
  let maxLag := (sampleRate + F0_MIN - 1) / F0_MIN
  let energy := ∑ i ∈ Finset.range size, windowed.getD i 0 * windowed.getD i 0
  if energy < 0.001 then -1
  else
    let best := bestLagSearch windowed minLag maxLag
    if best.2 ≤ 0 then -1
    else
      let bl := best.2.toNat
      let refined : ℝ :=
        if minLag < bl ∧ bl < maxLag - 1 then
          let y1 := normalizedCorrelation windowed (bl - 1)
          let y2 := normalizedCorrelation windowed bl
          let y3 := normalizedCorrelation windowed (bl + 1)
          let a := (y1 + y3 - 2 * y2) / 2
          if a ≠ 0 then (bl : ℝ) + (-(y3 - y1) / (2 * a * 2)) else (bl : ℝ)
        else (bl : ℝ)
      let f0 := (sampleRate : ℝ) / refined
      if (F0_MIN : ℝ) ≤ f0 ∧ f0 ≤ (F0_MAX : ℝ) then f0 else -1

/-! ## Jitter and shimmer -/

/-- The result object of `_computeJitter`. -/
structure JitterResult where
  absoluteJitter : ℝ
  relativeJitter : ℝ

/-- The result object of `_computeShimmer`. -/
structure ShimmerResult where
  shimmerDB : ℝ
  relativeShimmer : ℝ

/-- `_computeJitter()`, as a function of `this.pitchPeriods`. -/
def computeJitter (periods : List ℝ) : JitterResult :=
  if periods.length < 2 then { absoluteJitter := 0, relativeJitter := 0 }
  else
    let N := periods.length
    let sumAbsDiff := ∑ i ∈ Finset.Ico 1 N, |periods.getD i 0 - periods.getD (i - 1) 0|
    let absoluteJitter := sumAbsDiff / ((N : ℝ) - 1)
    let meanPeriod := periods.sum / (N : ℝ)
    let relativeJitter := if 0 < meanPeriod then absoluteJitter / meanPeriod * 100 else 0
    { absoluteJitter := absoluteJitter, relativeJitter := relativeJitter }

/-- `_computeShimmer()`, as a function of `this.cycleAmplitudes`. -/
def computeShimmer (amps : List ℝ) : ShimmerResult :=
  if amps.length < 2 then { shimmerDB := 0, relativeShimmer := 0 }
  else
    let N := amps.length
    let sumAbsDiff := ∑ i ∈ Finset.Ico 1 N, |amps.getD i 0 - amps.getD (i - 1) 0|
    let sumAbsLogDiff := ∑ i ∈ Finset.Ico 1 N,
      if 0 < amps.getD i 0 ∧ 0 < amps.getD (i - 1) 0 then
        |20 * Real.logb 10 (amps.getD i 0 / amps.getD (i - 1) 0)|
      else 0
    let meanAmp := amps.sum / (N : ℝ)
    let relativeShimmer :=
      if 0 < meanAmp then (sumAbsDiff / ((N : ℝ) - 1)) / meanAmp * 100 else 0
    let shimmerDB := sumAbsLogDiff / ((N : ℝ) - 1)
    { shimmerDB := shimmerDB, relativeShimmer := relativeShimmer }

/-! ## Spectral features (`_analyzeSpectralFeatures`) -/

/-- `_analyzeSpectralFeatures()`, as a function of the dB magnitude spectrum
(`this.frequencyBuffer`). -/
def analyzeSpectralFeatures (frequency : List ℝ) : SpectralSnapshot :=
  let binWidth : ℝ := (sampleRate : ℝ) / (fftSize : ℝ)
  let numBins := frequency.length
  let mag : ℕ → ℝ := fun i => (10 : ℝ) ^ (frequency.getD i 0 / 20)
  let freq : ℕ → ℝ := fun i => (i : ℝ) * binWidth
  let weightedSum := ∑ i ∈ Finset.range numBins, freq i * mag i
  let totalMag := ∑ i ∈ Finset.range numBins, mag i
  let lowEnergy := ∑ i ∈ Finset.range numBins,
    if freq i ≤ 500 then mag i * mag i else 0
  let midEnergy := ∑ i ∈ Finset.range numBins,
    if ¬(freq i ≤ 500) ∧ freq i ≤ 2000 then mag i * mag i else 0
  let highEnergy := ∑ i ∈ Finset.range numBins,
    if ¬(freq i ≤ 500) ∧ ¬(freq i ≤ 2000) ∧ freq i ≤ 8000 then mag i * mag i else 0
  let below2k := ∑ i ∈ Finset.range numBins,
    if freq i ≤ 2000 then mag i * mag i else 0
  let above2k := ∑ i ∈ Finset.range numBins,
    if ¬(freq i ≤ 2000) ∧ freq i ≤ 5000 then mag i * mag i else 0
  let centroid := if 0 < totalMag then weightedSum / totalMag else 0
  let totalEnergy := lowEnergy + midEnergy + highEnergy
  let hammarberg := if 0 < above2k then 10 * Real.logb 10 (below2k / above2k) else 0
  { centroid := centroid
    lowRatio := if 0 < totalEnergy then lowEnergy / totalEnergy else 0
    midRatio := if 0 < totalEnergy then midEnergy / totalEnergy else 0
    highRatio := if 0 < totalEnergy then highEnergy / totalEnergy else 0
    hammarberg := hammarberg }

/-! ## FFT (`_fftMagnitude`) -/

/-- The bit-reversal permutation index used in `_fftMagnitude`:
`for k < bits: j = (j << 1) | (x & 1); x >>= 1`. -/
def bitRev (bits : ℕ) (i : ℕ) : ℕ :=
  ((List.range bits).foldl (fun jx _ => (2 * jx.1 + jx.2 % 2, jx.2 / 2)) (0, i)).1

/-- `_fftMagnitude(buffer)`: radix-2 Cooley-Tukey FFT of a power-of-two
length buffer, returning the magnitude spectrum (first half). -/
def fftMagnitude (buffer : List ℝ) : List ℝ :=
  let N := buffer.length
  let bits := Nat.log2 N
  let real0 : Array ℝ := (List.range N).foldl
    (fun arr i => arr.setD (bitRev bits i) (buffer.getD i 0)) (Array.mkArray N 0)
  let imag0 : Array ℝ := Array.mkArray N 0
  let ri := (List.range bits).foldl
    (fun ri s =>
      let size : ℕ := 2 ^ (s + 1)
      let halfSize : ℕ := size / 2
      let angle : ℝ := -(2 * Real.pi) / (size : ℝ)
      (List.range (N / size)).foldl
        (fun ri2 (blk : ℕ) =>
          let i : ℕ := blk * size
          (List.range halfSize).foldl
            (fun ri3 (j : ℕ) =>
              let re := ri3.1
              let im := ri3.2
              let c := Real.cos (angle * (j : ℝ))
              let sn := Real.sin (angle * (j : ℝ))
              let tReal := re.getD (i + j + halfSize) 0 * c - im.getD (i + j + halfSize) 0 * sn
              let tImag := re.getD (i + j + halfSize) 0 * sn + im.getD (i + j + halfSize) 0 * c
              let re1 := re.setD (i + j + halfSize) (re.getD (i + j) 0 - tReal)
              let im1 := im.setD (i + j + halfSize) (im.getD (i + j) 0 - tImag)
              let re2 := re1.setD (i + j) (re1.getD (i + j) 0 + tReal)
              let im2 := im1.setD (i + j) (im1.getD (i + j) 0 + tImag)
              (re2, im2))
            ri2)
        ri)
    (real0, imag0)
  (List.range (N / 2)).map fun i =>
    Real.sqrt (ri.1.getD i 0 * ri.1.getD i 0 + ri.2.getD i 0 * ri.2.getD i 0)

/-! ## Micro-tremor analysis (`_analyzeMicroTremor`) -/

/-- The number of samples currently available in the ring buffer. -/
def availableSamples (filled : Bool) (writePos : ℕ) : ℕ :=
  if filled then ringBufferSize else writePos

/-- The window `_analyzeMicroTremor` extracts from the ring buffer (lines
extracting `data`): the most recent `min(available, 2·sampleRate)` samples,
read from `(writePos - analysisLength + ringBufferSize) mod ringBufferSize`
onwards (from index 0 while the buffer has not yet wrapped). -/
def tremorWindow (filled : Bool) (writePos : ℕ) (buf : List ℝ) : List ℝ :=
  let analysisLength := min (availableSamples filled writePos) (sampleRate * 2)
  let readPos := if filled
    then (writePos + ringBufferSize - analysisLength) % ringBufferSize
    else 0
  (List.range analysisLength).map fun i => buf.getD ((readPos + i) % ringBufferSize) 0

/-- `_analyzeMicroTremor()`: `null` when less than 1 s of audio is buffered;
otherwise rectified smoothed envelope, DC removal, decimation to 200 Hz,
zero-padded radix-2 FFT, and 8-12 Hz band energy relative to the 0-20 Hz
reference band. -/
def analyzeMicroTremor (filled : Bool) (writePos : ℕ) (buf : List ℝ) :
    Option TremorResult :=
  let analysisLength := min (availableSamples filled writePos) (sampleRate * 2)
  if analysisLength < sampleRate then none
  else
    let data := tremorWindow filled writePos buf
    let smoothWindow := sampleRate / 200
    let envelope : List ℝ := (List.range analysisLength).map fun i =>
      let s := i - smoothWindow
      let e := min analysisLength (i + smoothWindow + 1)
      (∑ j ∈ Finset.Ico s e, |data.getD j 0|) / ((e - s : ℕ) : ℝ)
    let envMean := envelope.sum / (envelope.length : ℝ)
    let centered := envelope.map fun v => v - envMean
    let decimation := sampleRate / 200
    let dsLen := envelope.length / decimation
    let downsampled := (List.range dsLen).map fun i => centered.getD (i * decimation) 0
    let fftLen := nextPowerOf2 dsLen
    let padded := downsampled ++ List.replicate (fftLen - dsLen) 0
    let spectrum := fftMagnitude padded
    let binRes : ℝ := (200 : ℝ) / (fftLen : ℝ)
    let lowBin := (⌊(TREMOR_BAND_LOW : ℝ) / binRes⌋).toNat
    let highBin := (⌈(TREMOR_BAND_HIGH : ℝ) / binRes⌉).toNat
    let totalBin := (⌊(20 : ℝ) / binRes⌋).toNat
    let upper := min totalBin spectrum.length
    let totalEnergy := ∑ i ∈ Finset.Ico 1 upper, spectrum.getD i 0 * spectrum.getD i 0
    let bandEnergy := ∑ i ∈ Finset.Ico 1 upper,
      if lowBin ≤ i ∧ i ≤ highBin then spectrum.getD i 0 * spectrum.getD i 0 else 0
    let peak := (List.range' 1 (upper - 1)).foldl
      (fun pv i =>
        if lowBin ≤ i ∧ i ≤ highBin ∧ pv.1 < spectrum.getD i 0
        then (spectrum.getD i 0, i) else pv)
      ((0 : ℝ), lowBin)
    some
      { energyRatio := if 0 < totalEnergy then bandEnergy / totalEnergy else 0
        peakFreq := (peak.2 : ℝ) * binRes
        bandEnergy := bandEnergy
        totalEnergy := totalEnergy }

/-! ## Quick real-time assessment (`_quickAssess`) -/

/-- The result object of `_quickAssess`. -/
structure QuickResult where
  voiceStress : ℝ
  f0Deviation : ℝ
  tremorScore : ℝ
  jitter : ℝ
  spectralShift : ℝ
  isSpeaking : Bool
  hasBaseline : Bool
  currentF0 : ℝ

/-- `_defaultQuickResult()`. -/
def defaultQuickResult : QuickResult where
  voiceStress := 0
  f0Deviation := 0
  tremorScore := 0
  jitter := 0
  spectralShift := 0
  isSpeaking := false
  hasBaseline := false
  currentF0 := 0

/-- The F0 block of `_quickAssess`: `(f0DeviationScore, f0DeviationPercent,
currentF0)` from the last 30 F0 samples and the baseline. -/
def quickF0Parts (st : EngineState) : ℝ × ℝ × ℝ :=
  if 0 < st.f0History.length then
    let recentF0 := (st.f0History.drop (st.f0History.length - 30)).map F0Sample.f0
    let currentF0 := recentF0.getLastD 0
    match st.f0Baseline with
    | some b =>
      if st.baselineEstablished then
        let recentMean := recentF0.sum / (recentF0.length : ℝ)
        let f0DeviationPercent := |(recentMean - b.meanF0) / b.meanF0 * 100|
        (min 100 (f0DeviationPercent * 5), f0DeviationPercent, currentF0)
      else (0, 0, currentF0)
    | none => (0, 0, currentF0)
  else (0, 0, 0)

/-- The F0-deviation sub-score of `_quickAssess`. -/
def quickF0Score (st : EngineState) : ℝ := (quickF0Parts st).1

/-- The tremor sub-score of `_quickAssess`: from the last 10 tremor
snapshots, `min(100, round(avgEnergy·200 + (avgPeakFreq - 9.5)·30⁺))`. -/
def quickTremorScore (st : EngineState) : ℝ :=
  if 0 < st.tremorHistory.length then
    let recentTremor := st.tremorHistory.drop (st.tremorHistory.length - 10)
    let avgEnergy := ((recentTremor.map TremorEntry.energyRatio).sum) / (recentTremor.length : ℝ)
    let avgPeakFreq := ((recentTremor.map TremorEntry.peakFreq).sum) / (recentTremor.length : ℝ)
    min 100 ((round (avgEnergy * 200 +
      (if 9.5 < avgPeakFreq then (avgPeakFreq - 9.5) * 30 else 0)) : ℤ) : ℝ)
  else 0

/-- The jitter block of `_quickAssess`: `(jitterPercent, jitterScore)`. -/
def quickJitterParts (st : EngineState) : ℝ × ℝ :=
  if 10 < st.pitchPeriods.length then
    let jitterPercent := (computeJitter st.pitchPeriods).relativeJitter
    (jitterPercent, min 100 (|jitterPercent - 1.0| * 80))
  else (0, 0)

/-- The jitter sub-score of `_quickAssess`. -/
def quickJitterScore (st : EngineState) : ℝ := (quickJitterParts st).2

/-- The spectral-shift sub-score of `_quickAssess`. -/
def quickSpectralScore (st : EngineState) : ℝ :=
  match st.spectralBaseline with
  | some sb =>
    if 10 < st.spectralHistory.length then
      let recentSpectral := st.spectralHistory.drop (st.spectralHistory.length - 30)
      let recentCentroid :=
        ((recentSpectral.map SpectralSnapshot.centroid).sum) / (recentSpectral.length : ℝ)
      let centroidShift := |recentCentroid - sb.centroid|
      min 100 (centroidShift / 10)
    else 0
  | none => 0

/-- The shimmer sub-score of `_quickAssess`. -/
def quickShimmerScore (st : EngineState) : ℝ :=
  if 10 < st.cycleAmplitudes.length then
    let shimmer := computeShimmer st.cycleAmplitudes
    min 100 (|shimmer.relativeShimmer - 3.0| * 15)
  else 0

/-- `_quickAssess()`. -/
def quickAssess (st : EngineState) : QuickResult :=
  if st.totalFrameCount < 5 then defaultQuickResult
  else
    let f0Parts := quickF0Parts st
    let voiceStress := min 100 ((round
      (quickF0Score st * 0.30 +
       quickTremorScore st * 0.25 +
       quickJitterScore st * 0.20 +
       quickSpectralScore st * 0.15 +
       quickShimmerScore st * 0.10) : ℤ) : ℝ)
    { voiceStress := voiceStress
      f0Deviation := ((round (f0Parts.2.1 * 10) : ℤ) : ℝ) / 10
      tremorScore := quickTremorScore st
      jitter := ((round ((quickJitterParts st).1 * 100) : ℤ) : ℝ) / 100
      spectralShift := quickSpectralScore st
      isSpeaking := st.isSpeechActive
      hasBaseline := st.baselineEstablished
      currentF0 := ((round f0Parts.2.2 : ℤ) : ℝ) }

/-! ## Real-time processing (`processAudioFrame`) -/

/-- The baseline computation of `_establishBaseline`: the mean and the
population standard deviation of the accumulated values. -/
def baselineOf (vals : List ℝ) : Baseline :=
  let mean := vals.sum / (vals.length : ℝ)
  let variance := (vals.map fun v => (v - mean) * (v - mean)).sum / (vals.length : ℝ)
  { meanF0 := mean, sdF0 := Real.sqrt variance }

/-- `_establishBaseline()`: freeze the mean and population standard
deviation of the accumulated baseline F0 values. -/
def establishBaseline (st : EngineState) : EngineState :=
  { st with
    f0Baseline := some (baselineOf st.baselineF0Values)
    baselineEstablished := true }

/-- The voiced part of the speech branch of `processAudioFrame` (executed
when `_trackFundamentalFrequency` returned a valid `f0 > 0`): push the
F0 sample, accumulate/establish the baseline, and push the pitch period and
cycle amplitude (both capped at 300). -/
def voicedUpdate (fr : AnalysisFrame) (f0 : ℝ) (st : EngineState) : EngineState :=
  let amplitude := computeRMS fr.timeDomain
  let st :=
    { st with f0History :=
        st.f0History ++ [({ time := st.totalFrameCount, f0 := f0, amplitude := amplitude } : F0Sample)] }
  let st :=
    if st.baselineEstablished then st
    else
      let st := { st with baselineF0Values := st.baselineF0Values ++ [f0] }
      if BASELINE_SPEECH_FRAMES ≤ st.baselineF0Values.length then establishBaseline st
      else st
  let st := { st with pitchPeriods := capPush 300 st.pitchPeriods ((sampleRate : ℝ) / f0) }
  { st with cycleAmplitudes := capPush 300 st.cycleAmplitudes amplitude }

/-- The pause-closing step at the start of the speech branch of
`processAudioFrame`. -/
def pauseClose (st : EngineState) : EngineState :=
  if st.inSilencePause then
    { st with
      inSilencePause := false
      pauseDurations :=
        st.pauseDurations ++ [(st.totalFrameCount : ℤ) - (st.currentPauseStart : ℤ)] }
  else st

/-- The F0-tracking step of the speech branch of `processAudioFrame`:
run `_trackFundamentalFrequency` and, on a valid detection, record it. -/
def pitchUpdate (fr : AnalysisFrame) (st : EngineState) : EngineState :=
  let f0 := trackFundamentalFrequency fr.timeDomain
  if 0 < f0 then voicedUpdate fr f0 st else st

/-- The spectral step of the speech branch of `processAudioFrame`: push the
spectral snapshot (capped at 900) and establish the spectral baseline from
the first 150 snapshots once that many exist. -/
def spectralUpdate (fr : AnalysisFrame) (st : EngineState) : EngineState :=
  let spectral := analyzeSpectralFeatures fr.frequency
  let st := { st with spectralHistory := capPush 900 st.spectralHistory spectral }
  match st.spectralBaseline with
  | some _ => st
  | none =>
    if BASELINE_SPEECH_FRAMES ≤ st.spectralHistory.length then
      let baseSamples := st.spectralHistory.take BASELINE_SPEECH_FRAMES
      let sb : SpectralBaseline :=
        { centroid := ((baseSamples.map SpectralSnapshot.centroid).sum) / (baseSamples.length : ℝ)
          hammarberg := ((baseSamples.map SpectralSnapshot.hammarberg).sum) / (baseSamples.length : ℝ) }
      { st with spectralBaseline := some sb }
    else st

/-- The speech branch of `processAudioFrame`: count the speech frame, close
a silence pause, track F0, and update the spectral history and spectral
baseline. -/
def speechUpdate (fr : AnalysisFrame) (st : EngineState) : EngineState :=
  spectralUpdate fr
    (pitchUpdate fr (pauseClose { st with speechFrameCount := st.speechFrameCount + 1 }))

/-- The silence branch of `processAudioFrame`: count the silent frame and
open a pause when leaving speech. -/
def silenceUpdate (st : EngineState) : EngineState :=
  let st := { st with silenceFrameCount := st.silenceFrameCount + 1 }
  if st.inSilencePause = false ∧ 0 < st.speechFrameCount then
    { st with
      inSilencePause := true
      currentPauseStart := st.totalFrameCount
      silencePauses := st.silencePauses + 1 }
  else st

/-- The micro-tremor step of `processAudioFrame`: gated on
`ringBufferFilled || ringBufferWritePos > sampleRate`, appending a tremor
snapshot (capped at 300) when the analyzer returns a result. -/
def tremorStep (st : EngineState) : EngineState :=
  if st.ringBufferFilled = true ∨ sampleRate < st.ringBufferWritePos then
    match analyzeMicroTremor st.ringBufferFilled st.ringBufferWritePos st.ringBuffer with
    | some t =>
      let entry : TremorEntry :=
        { time := st.totalFrameCount
          energyRatio := t.energyRatio
          peakFreq := t.peakFreq
          bandEnergy := t.bandEnergy
          totalEnergy := t.totalEnergy }
      { st with tremorHistory := capPush 300 st.tremorHistory entry }
    | none => st
  else st

/-- The timeline step of `processAudioFrame`: one entry per
`timelineWindowFrames` frames. -/
def timelineStep (st : EngineState) : EngineState :=
  if st.totalFrameCount % timelineWindowFrames = 0 then
    let assess := quickAssess st
    { st with vsaTimeline := st.vsaTimeline ++
        [{ timeSeconds := round ((st.totalFrameCount : ℝ) / 30)
           voiceStress := assess.voiceStress
           f0 := assess.currentF0
           isSpeaking := assess.isSpeaking }] }
  else st

/-- The frame entry of `processAudioFrame`: count the frame and run voice
activity detection. -/
def frameStart (fr : AnalysisFrame) (st : EngineState) : EngineState :=
  { st with
    totalFrameCount := st.totalFrameCount + 1
    isSpeechActive := detectVoiceActivity fr.timeDomain }

/-- The speech/silence branch of `processAudioFrame`, after `frameStart`. -/
def frameBranch (fr : AnalysisFrame) (st : EngineState) : EngineState :=
  let st := frameStart fr st
  if st.isSpeechActive then speechUpdate fr st else silenceUpdate st

/-- `processAudioFrame()` for one analysis tick (active session). -/
def processAudioFrame (fr : AnalysisFrame) (st : EngineState) : EngineState :=
  timelineStep (tremorStep (frameBranch fr st))

/-! ## Session traces

A session interleaves audio-block ingestion (`onaudioprocess` calling
`_fillRingBuffer`) with per-tick frame processing. -/

/-- One externally triggered event of an active session. -/
inductive EngineStep where
  | fill (samples : List ℝ)
  | frame (fr : AnalysisFrame)

/-- Apply one session event. -/
def runStep (st : EngineState) (s : EngineStep) : EngineState :=
  match s with
  | .fill samples => fillRingBuffer samples st
  | .frame fr => processAudioFrame fr st

/-- Run a session trace from a given state. -/
def runFrom (st : EngineState) (steps : List EngineStep) : EngineState :=
  steps.foldl runStep st

/-- Run a session trace from the initial (freshly allocated / cleared)
state.  The states `runSteps steps` are exactly the reachable session
states. -/
def runSteps (steps : List EngineStep) : EngineState :=
  runFrom initState steps

/-- The concatenation of all samples pushed into the ring buffer by a
trace, in order. -/
def pushedSamples (steps : List EngineStep) : List ℝ :=
  steps.foldr (fun s acc => match s with | .fill l => l ++ acc | .frame _ => acc) []

/-! ## Full post-scan analysis (`fullAnalysis`) -/

/-- The `fundamentalFrequency` section of the full report. -/
structure F0Report where
  baselineMean : Option ℤ
  baselineSD : Option ℝ
  analysisMean : ℤ
  analysisSD : ℝ
  deviationPercent : ℝ
  range : ℤ
  assessment : String

/-- The `microTremor` section of the full report. -/
structure TremorReport where
  avgEnergy : ℝ
  peakEnergy : ℝ
  avgPeakFreq : ℝ
  tremorScore : ℝ
  assessment : String

/-- The `voiceQuality` section of the full report. -/
structure QualityReport where
  jitter : ℝ
  shimmer : ℝ
  shimmerDB : ℝ
  jitterAssessment : String
  shimmerAssessment : String

/-- The `spectralAnalysis` section of the full report. -/
structure SpectralReport where
  baselineCentroid : Option ℤ
  centroidShift : ℤ
  hammarbergShift : ℝ
  assessment : String

/-- The `speechMetrics` section of the full report. -/
structure SpeechReport where
  speechRatio : ℤ
  totalSpeechDuration : ℝ
  totalDuration : ℝ
  silencePauses : ℕ
  avgPauseDuration : ℝ

/-- An indicator tag `{ label, color }`. -/
structure Indicator where
  label : String
  color : String
deriving DecidableEq

/-- The full report object returned by `fullAnalysis`. -/
structure FullReport where
  voiceStressScore : ℝ
  confidenceLevel : ℝ
  baselineEstablished : Bool
  fundamentalFrequency : F0Report
  microTremor : TremorReport
  voiceQuality : QualityReport
  spectralAnalysis : SpectralReport
  speechMetrics : SpeechReport
  vsaTimeline : List TimelineEntry
  indicators : List Indicator
  overallAssessment : String

/-- The `speechRatio` computed at the top of `fullAnalysis`. -/
def speechRatioOf (st : EngineState) : ℤ :=
  if 0 < st.totalFrameCount then
    round (((st.speechFrameCount : ℝ) / (st.totalFrameCount : ℝ)) * 100)
  else 0

/-- `_defaultFullResult(speechRatio)`: the neutral report returned when
fewer than 10 speech frames were observed. -/
def defaultFullResult (speechRatio : ℤ) (st : EngineState) : FullReport where
  voiceStressScore := 0
  confidenceLevel := 0
  baselineEstablished := false
  fundamentalFrequency :=
    { baselineMean := none, baselineSD := none, analysisMean := 0, analysisSD := 0
      deviationPercent := 0, range := 0, assessment := "Insufficient speech data" }
  microTremor :=
    { avgEnergy := 0, peakEnergy := 0, avgPeakFreq := 0, tremorScore := 0
      assessment := "Insufficient data" }
  voiceQuality :=
    { jitter := 0, shimmer := 0, shimmerDB := 0, jitterAssessment := "No data"
      shimmerAssessment := "No data" }
  spectralAnalysis :=
    { baselineCentroid := none, centroidShift := 0, hammarbergShift := 0
      assessment := "Insufficient data" }
  speechMetrics :=
    { speechRatio := speechRatio, totalSpeechDuration := 0
      totalDuration := (st.totalFrameCount : ℝ) / 30, silencePauses := 0
      avgPauseDuration := 0 }
  vsaTimeline := []
  indicators := [{ label := "INSUFFICIENT SPEECH", color := "yellow" }]
  overallAssessment :=
    "Insufficient speech detected for voice stress analysis. Ensure the subject speaks clearly into the microphone."

/-- The F0 deviation percent of `fullAnalysis`: deviation of the mean
post-baseline F0 from the baseline mean, in percent (0 without a baseline
or post-baseline samples). -/
def fullF0DeviationPercent (st : EngineState) : ℝ :=
  match st.f0Baseline with
  | some b =>
    if st.baselineEstablished then
      let postBaseline := st.f0History.drop BASELINE_SPEECH_FRAMES
      if 0 < postBaseline.length then
        let analysisMean := ((postBaseline.map F0Sample.f0).sum) / (postBaseline.length : ℝ)
        |(analysisMean - b.meanF0) / b.meanF0 * 100|
      else 0
    else 0
  | none => 0

/-- The categorical F0 assessment of `fullAnalysis`. -/
def fullF0Assessment (st : EngineState) : String :=
  if 15 < fullF0DeviationPercent st then "High Stress"
  else if 5 < fullF0DeviationPercent st then "Elevated"
  else "Normal"

/-- The F0-deviation sub-score of `fullAnalysis`. -/
def fullF0Score (st : EngineState) : ℝ := min 100 (fullF0DeviationPercent st * 5)

/-- The tremor statistics of `fullAnalysis`:
`(avgEnergy, peakEnergy, avgPeakFreq)` over the whole tremor history. -/
def fullTremorStats (st : EngineState) : ℝ × ℝ × ℝ :=
  if 0 < st.tremorHistory.length then
    (((st.tremorHistory.map TremorEntry.energyRatio).sum) / (st.tremorHistory.length : ℝ),
     listMax (st.tremorHistory.map TremorEntry.energyRatio),
     ((st.tremorHistory.map TremorEntry.peakFreq).sum) / (st.tremorHistory.length : ℝ))
  else (0, 0, 0)

/-- The tremor sub-score of `fullAnalysis`. -/
def fullTremorScore (st : EngineState) : ℝ :=
  if 0 < st.tremorHistory.length then
    let stats := fullTremorStats st
    min 100 ((round (stats.1 * 200 +
      (if 9.5 < stats.2.2 then (stats.2.2 - 9.5) * 30 else 0)) : ℤ) : ℝ)
  else 0

/-- The categorical tremor assessment of `fullAnalysis`. -/
def fullTremorAssessment (st : EngineState) : String :=
  if 60 < fullTremorScore st then
    "High — vocal tremor pattern consistent with elevated stress"
  else if 30 < fullTremorScore st then "Moderate — some tremor variation detected"
  else "Normal — tremor patterns within expected range"

/-- The spectral block of `fullAnalysis`:
`(centroidShift, hammarbergShift, assessment)`. -/
def fullSpectralParts (st : EngineState) : ℤ × ℝ × String :=
  match st.spectralBaseline with
  | some sb =>
    if BASELINE_SPEECH_FRAMES < st.spectralHistory.length then
      let postBaseline := st.spectralHistory.drop BASELINE_SPEECH_FRAMES
      let analysisCentroid :=
        ((postBaseline.map SpectralSnapshot.centroid).sum) / (postBaseline.length : ℝ)
      let analysisHammarberg :=
        ((postBaseline.map SpectralSnapshot.hammarberg).sum) / (postBaseline.length : ℝ)
      let centroidShift := round (analysisCentroid - sb.centroid)
      let hammarbergShift := ((round ((analysisHammarberg - sb.hammarberg) * 10) : ℤ) : ℝ) / 10
      (centroidShift, hammarbergShift,
        if 100 < |centroidShift| then "Significant spectral shift detected"
        else "Spectral distribution within normal variation")
    else (0, 0, "Insufficient data")
  | none => (0, 0, "Insufficient data")

/-- The spectral-shift sub-score of `fullAnalysis`. -/
def fullSpectralScore (st : EngineState) : ℝ :=
  match st.spectralBaseline with
  | some _ => min 100 (|(((fullSpectralParts st).1 : ℤ) : ℝ)| / 10)
  | none => 0

/-- The jitter sub-score of `fullAnalysis`. -/
def fullJitterScore (st : EngineState) : ℝ :=
  min 100 (|(computeJitter st.pitchPeriods).relativeJitter - 1.0| * 80)

/-- The shimmer sub-score of `fullAnalysis`. -/
def fullShimmerScore (st : EngineState) : ℝ :=
  min 100 (|(computeShimmer st.cycleAmplitudes).relativeShimmer - 3.0| * 15)

/-- The composite voice stress score of `fullAnalysis`. -/
def fullVoiceStressScore (st : EngineState) : ℝ :=
  min 100 ((round
    (fullF0Score st * 0.30 +
     fullTremorScore st * 0.25 +
     fullJitterScore st * 0.20 +
     fullSpectralScore st * 0.15 +
     fullShimmerScore st * 0.10) : ℤ) : ℝ)

/-- `_generateIndicators(voiceStress, f0Dev, tremor, jitter)` (also reads
`this.baselineEstablished`). -/
def generateIndicators (voiceStress f0Dev tremor jitter : ℝ)
    (baselineEstablished : Bool) : List Indicator :=
  let indicators : List Indicator :=
    (if 70 ≤ voiceStress then [{ label := "HIGH VOICE STRESS", color := "red" }]
     else if 40 ≤ voiceStress then [{ label := "ELEVATED VOICE STRESS", color := "orange" }]
     else []) ++
    (if 15 < f0Dev then [{ label := "SIGNIFICANT PITCH SHIFT", color := "red" }]
     else if 8 < f0Dev then [{ label := "PITCH DEVIATION", color := "orange" }]
     else []) ++
    (if 60 ≤ tremor then [{ label := "VOCAL TREMOR DETECTED", color := "red" }]
     else if 30 ≤ tremor then [{ label := "MILD TREMOR", color := "yellow" }]
     else []) ++
    (if jitter < 0.5 then [{ label := "VOCAL TENSION", color := "orange" }]
     else if 2.0 < jitter then [{ label := "VOICE INSTABILITY", color := "orange" }]
     else []) ++
    (if baselineEstablished then [] else [{ label := "NO BASELINE", color := "yellow" }])
  if indicators.length = 0 then [{ label := "VOICE NORMAL", color := "green" }]
  else indicators

/-- JavaScript number-to-string template rendering, abstracted: no claim
depends on the rendered digits. -/
def realToString (_ : ℝ) : String := ""

/-- The substring test `s.includes(t)`, rendered via `splitOn`. -/
def includesStr (s t : String) : Bool := 1 < (s.splitOn t).length

/-- `_generateAssessment(voiceStress, f0Assessment, tremorAssessment,
speechRatio)` (also reads `this.baselineEstablished`). -/
def generateAssessment (voiceStress : ℝ) (f0Assessment tremorAssessment : String)
    (speechRatio : ℤ) (baselineEstablished : Bool) : String :=
  if speechRatio < 10 then
    "Minimal speech detected during the interview. Voice stress analysis is unreliable. Recommend repeating with verbal responses from the subject."
  else if baselineEstablished = false then
    "Voice baseline could not be established due to insufficient sustained speech. The voice stress score is based on absolute metrics only and has reduced reliability."
  else if 70 ≤ voiceStress then
    "Voice analysis indicates high stress levels (" ++ realToString voiceStress ++ "%). " ++
    (if f0Assessment = "High Stress" then
      "Fundamental frequency deviated significantly from baseline." else "") ++ " " ++
    (if includesStr tremorAssessment "High" then
      "Vocal micro-tremor patterns are consistent with psychophysiological stress response."
     else "") ++
    " These voice patterns, combined with facial analysis, suggest elevated likelihood of deceptive behavior."
  else if 40 ≤ voiceStress then
    "Voice analysis indicates moderate stress levels (" ++ realToString voiceStress ++
    "%). Some deviation from baseline vocal patterns was detected. This may indicate cognitive load associated with deception, or normal interview anxiety. Consider in conjunction with facial behavioral indicators."
  else
    "Voice analysis indicates low stress levels (" ++ realToString voiceStress ++
    "%). Vocal patterns remain close to baseline with normal tremor and pitch variation. Voice biometrics are consistent with truthful baseline behavior."

/-- `fullAnalysis()`. -/
def fullAnalysis (st : EngineState) : FullReport :=
  let speechRatio := speechRatioOf st
  if st.speechFrameCount < 10 then defaultFullResult speechRatio st
  else
    let fps : ℝ := 30
    let totalDuration := (st.totalFrameCount : ℝ) / fps
    let speechDuration := (st.speechFrameCount : ℝ) / fps
    let allF0 := st.f0History.map F0Sample.f0
    let f0Mean := if 0 < allF0.length then allF0.sum / (allF0.length : ℝ) else 0
    let f0SD :=
      if 1 < allF0.length then
        Real.sqrt (((allF0.map fun v => (v - f0Mean) * (v - f0Mean)).sum) / (allF0.length : ℝ))
      else 0
    let f0Range := if 0 < allF0.length then listMax allF0 - listMin allF0 else 0
    let f0DeviationPercent := fullF0DeviationPercent st
    let tremorStats := fullTremorStats st
    let jitter := computeJitter st.pitchPeriods
    let shimmer := computeShimmer st.cycleAmplitudes
    let jitterAssessment :=
      if 1.5 < jitter.relativeJitter then "Elevated pitch perturbation"
      else if jitter.relativeJitter < 0.5 then "Low jitter — possible muscle tension"
      else "Normal range"
    let shimmerAssessment :=
      if 5 < shimmer.relativeShimmer then "Elevated amplitude variation"
      else "Normal range"
    let spectralParts := fullSpectralParts st
    let avgPauseDuration :=
      if 0 < st.pauseDurations.length then
        ((round ((((st.pauseDurations.map fun d => (d : ℝ)).sum) /
          (st.pauseDurations.length : ℝ)) / fps * 100) : ℤ) : ℝ) / 100
      else 0
    let voiceStressScore := fullVoiceStressScore st
    let confidenceLevel := min 100 ((round
      (((st.speechFrameCount : ℝ) / 300) * 50 +
       (if st.baselineEstablished then (40 : ℝ) else 0) +
       (if 10 < st.tremorHistory.length then (10 : ℝ) else 0)) : ℤ) : ℝ)
    { voiceStressScore := voiceStressScore
      confidenceLevel := confidenceLevel
      baselineEstablished := st.baselineEstablished
      fundamentalFrequency :=
        { baselineMean := st.f0Baseline.map fun b => round b.meanF0
          baselineSD := st.f0Baseline.map fun b => ((round (b.sdF0 * 10) : ℤ) : ℝ) / 10
          analysisMean := round f0Mean
          analysisSD := ((round (f0SD * 10) : ℤ) : ℝ) / 10
          deviationPercent := ((round (f0DeviationPercent * 10) : ℤ) : ℝ) / 10
          range := round f0Range
          assessment := fullF0Assessment st }
      microTremor :=
        { avgEnergy := ((round (tremorStats.1 * 1000) : ℤ) : ℝ) / 1000
          peakEnergy := ((round (tremorStats.2.1 * 1000) : ℤ) : ℝ) / 1000
          avgPeakFreq := ((round (tremorStats.2.2 * 10) : ℤ) : ℝ) / 10
          tremorScore := fullTremorScore st
          assessment := fullTremorAssessment st }
      voiceQuality :=
        { jitter := ((round (jitter.relativeJitter * 100) : ℤ) : ℝ) / 100
          shimmer := ((round (shimmer.relativeShimmer * 100) : ℤ) : ℝ) / 100
          shimmerDB := ((round (shimmer.shimmerDB * 100) : ℤ) : ℝ) / 100
          jitterAssessment := jitterAssessment
          shimmerAssessment := shimmerAssessment }
      spectralAnalysis :=
        { baselineCentroid := st.spectralBaseline.map fun sb => round sb.centroid
          centroidShift := spectralParts.1
          hammarbergShift := spectralParts.2.1
          assessment := spectralParts.2.2 }
      speechMetrics :=
        { speechRatio := speechRatio
          totalSpeechDuration := ((round (speechDuration * 10) : ℤ) : ℝ) / 10
          totalDuration := ((round (totalDuration * 10) : ℤ) : ℝ) / 10
          silencePauses := st.silencePauses
          avgPauseDuration := avgPauseDuration }
      vsaTimeline := st.vsaTimeline
      indicators := generateIndicators voiceStressScore f0DeviationPercent
        (fullTremorScore st) jitter.relativeJitter st.baselineEstablished
      overallAssessment := generateAssessment voiceStressScore (fullF0Assessment st)
        (fullTremorAssessment st) speechRatio st.baselineEstablished }

/-! ## Specification predicates and concrete scenario states -/

/-- The ring-buffer representation invariant: after a history `h` of pushed
samples, the cursor is `h.length mod capacity`, the filled flag records
whether the cursor has wrapped, and every one of the last `capacity` pushed
samples sits at its slot `index mod capacity`. -/
def RingInv (h : List ℝ) (st : EngineState) : Prop :=
  st.ringBuffer.length = ringBufferSize ∧
  st.ringBufferWritePos = h.length % ringBufferSize ∧
  (st.ringBufferFilled = true ↔ ringBufferSize ≤ h.length) ∧
  ∀ m, m < h.length → h.length ≤ m + ringBufferSize →
    st.ringBuffer.getD (m % ringBufferSize) 0 = h.getD m 0

/-- Sanity bounds on a micro-tremor analysis result: the energy ratio lies
in `[0, 1]`, the band energy never exceeds the reference-band energy, and
the ratio is `0` when the reference band is empty.  (Trivially true for the
`null` result.) -/
def tremorResultOK : Option TremorResult → Prop
  | none => True
  | some t =>
    0 ≤ t.energyRatio ∧ t.energyRatio ≤ 1 ∧ 0 ≤ t.bandEnergy ∧
    t.bandEnergy ≤ t.totalEnergy ∧ (t.totalEnergy = 0 → t.energyRatio = 0)

/-- The baseline-freezing invariant of reachable states: the accumulated
baseline F0 values are exactly the first 150 voiced F0 values, the
baseline is established exactly when 150 voiced F0 samples have been
collected, and it then equals the mean / population standard deviation of
those first 150 values. -/
def BaselineInv (st : EngineState) : Prop :=
  st.baselineF0Values = (st.f0History.map F0Sample.f0).take BASELINE_SPEECH_FRAMES ∧
  (st.baselineEstablished = true ↔ BASELINE_SPEECH_FRAMES ≤ st.f0History.length) ∧
  st.f0Baseline =
    (if BASELINE_SPEECH_FRAMES ≤ st.f0History.length then
      some (baselineOf ((st.f0History.map F0Sample.f0).take BASELINE_SPEECH_FRAMES))
    else none)

/-- All recorded tremor snapshots have a nonnegative energy ratio (an
invariant of reachable states, used for score bounds). -/
def tremorHistNonneg (st : EngineState) : Prop :=
  ∀ t ∈ st.tremorHistory, 0 ≤ t.energyRatio

/-- An all-zero analysis tick (silent input). -/
def zeroFrame : AnalysisFrame where
  timeDomain := List.replicate fftSize 0
  frequency := List.replicate (fftSize / 2) 0

/-- A session state with eleven voiced frames recorded (constant 200 Hz
pitch, constant amplitude) and no baseline yet. -/
def elevenVoicedState : EngineState :=
  { initState with
    totalFrameCount := 11
    speechFrameCount := 11
    f0History := List.replicate 11 { time := 1, f0 := 200, amplitude := 0.1 }
    pitchPeriods := List.replicate 11 240
    cycleAmplitudes := List.replicate 11 0.1
    spectralHistory := List.replicate 11 { centroid := 0, lowRatio := 0, midRatio := 0, highRatio := 0, hammarberg := 0 } }

/-- A session state whose ring buffer holds exactly one second of audio
(`writePos = sampleRate`, not yet wrapped). -/
def oneSecondState : EngineState :=
  { initState with ringBufferWritePos := sampleRate }

/-- A session state whose ring buffer has wrapped (two seconds buffered). -/
def filledRingState : EngineState :=
  { initState with ringBufferFilled := true }

/-- A session state with an established 200 Hz baseline and one
post-baseline voiced frame at 240 Hz (20 % above baseline). -/
def shiftedPitchState : EngineState :=
  { initState with
    speechFrameCount := 10
    baselineEstablished := true
    f0Baseline := some { meanF0 := 200, sdF0 := 0 }
    f0History :=
      List.replicate 150 { time := 0, f0 := 200, amplitude := 1 } ++
        [{ time := 0, f0 := 240, amplitude := 1 }] }

end

/-! # Theorems -/

section Helpers

/-! ### Generic list access lemmas -/

theorem listGetD_append_left {α : Type} [Inhabited α] (l : List α) (x d : α) (i : ℕ)
    (h : i < l.length) : (l ++ [x]).getD i d = l.getD i d := by
  simp [List.getD, List.get?_eq_getElem?, List.getElem?_append, h]

theorem listGetD_concat_self {α : Type} [Inhabited α] (l : List α) (x d : α) :
    (l ++ [x]).getD l.length d = x := by
  simp [List.getD, List.get?_eq_getElem?, List.getElem?_concat_length]

theorem listGetD_set_ne {α : Type} [Inhabited α] (l : List α) (x d : α) (i j : ℕ)
    (h : i ≠ j) : (l.set i x).getD j d = l.getD j d := by
  simp [List.getD, List.get?_eq_getElem?, List.getElem?_set_ne h]

theorem listGetD_set_self {α : Type} [Inhabited α] (l : List α) (x d : α) (i : ℕ)
    (h : i < l.length) : (l.set i x).getD i d = x := by
  simp [List.getD, List.get?_eq_getElem?, List.getElem?_set_self, h]

theorem listGetD_eq_getElem {α : Type} [Inhabited α] (l : List α) (d : α) (i : ℕ)
    (h : i < l.length) : l.getD i d = l[i] := by
  simp [List.getD, List.get?_eq_getElem?, List.getElem?_eq_getElem h]

theorem mem_capPush {α : Type} {cap : ℕ} {l : List α} {x y : α}
    (h : y ∈ capPush cap l x) : y ∈ l ++ [x] := by
  simp only [capPush] at h
  split at h
  · exact (List.drop_subset _ _) h
  · exact h

end Helpers

section Preservation

/-! ### Frame processing does not touch the ring buffer, and block
ingestion does not touch the analysis histories. -/

theorem establishBaseline_ringBuffer (st : EngineState) :
    (establishBaseline st).ringBuffer = st.ringBuffer := rfl

theorem establishBaseline_ringBufferWritePos (st : EngineState) :
    (establishBaseline st).ringBufferWritePos = st.ringBufferWritePos := rfl

theorem establishBaseline_ringBufferFilled (st : EngineState) :
    (establishBaseline st).ringBufferFilled = st.ringBufferFilled := rfl

theorem establishBaseline_tremorHistory (st : EngineState) :
    (establishBaseline st).tremorHistory = st.tremorHistory := rfl

theorem voicedUpdate_ringBuffer (fr : AnalysisFrame) (f0 : ℝ) (st : EngineState) :
    (voicedUpdate fr f0 st).ringBuffer = st.ringBuffer := by
  unfold voicedUpdate
  dsimp only
  split_ifs <;> simp [establishBaseline_ringBuffer]

theorem voicedUpdate_ringBufferWritePos (fr : AnalysisFrame) (f0 : ℝ) (st : EngineState) :
    (voicedUpdate fr f0 st).ringBufferWritePos = st.ringBufferWritePos := by
  unfold voicedUpdate
  dsimp only
  split_ifs <;> simp [establishBaseline_ringBufferWritePos]

theorem voicedUpdate_ringBufferFilled (fr : AnalysisFrame) (f0 : ℝ) (st : EngineState) :
    (voicedUpdate fr f0 st).ringBufferFilled = st.ringBufferFilled := by
  unfold voicedUpdate
  dsimp only
  split_ifs <;> simp [establishBaseline_ringBufferFilled]

theorem voicedUpdate_tremorHistory (fr : AnalysisFrame) (f0 : ℝ) (st : EngineState) :
    (voicedUpdate fr f0 st).tremorHistory = st.tremorHistory := by
  unfold voicedUpdate
  dsimp only
  split_ifs <;> simp [establishBaseline_tremorHistory]

theorem pauseClose_ring (st : EngineState) :
    (pauseClose st).ringBuffer = st.ringBuffer ∧
    (pauseClose st).ringBufferWritePos = st.ringBufferWritePos ∧
    (pauseClose st).ringBufferFilled = st.ringBufferFilled := by
  unfold pauseClose
  split_ifs <;> exact ⟨rfl, rfl, rfl⟩

theorem pauseClose_baseFields (st : EngineState) :
    (pauseClose st).f0History = st.f0History ∧
    (pauseClose st).baselineF0Values = st.baselineF0Values ∧
    (pauseClose st).baselineEstablished = st.baselineEstablished ∧
    (pauseClose st).f0Baseline = st.f0Baseline := by
  unfold pauseClose
  split_ifs <;> exact ⟨rfl, rfl, rfl, rfl⟩

theorem pauseClose_tremorHistory (st : EngineState) :
    (pauseClose st).tremorHistory = st.tremorHistory := by
  unfold pauseClose
  split_ifs <;> rfl

theorem pauseClose_totalFrameCount (st : EngineState) :
    (pauseClose st).totalFrameCount = st.totalFrameCount := by
  unfold pauseClose
  split_ifs <;> rfl

theorem pitchUpdate_ring (fr : AnalysisFrame) (st : EngineState) :
    (pitchUpdate fr st).ringBuffer = st.ringBuffer ∧
    (pitchUpdate fr st).ringBufferWritePos = st.ringBufferWritePos ∧
    (pitchUpdate fr st).ringBufferFilled = st.ringBufferFilled := by
  unfold pitchUpdate
  dsimp only
  split_ifs <;>
    simp [voicedUpdate_ringBuffer, voicedUpdate_ringBufferWritePos,
      voicedUpdate_ringBufferFilled]

theorem pitchUpdate_tremorHistory (fr : AnalysisFrame) (st : EngineState) :
    (pitchUpdate fr st).tremorHistory = st.tremorHistory := by
  unfold pitchUpdate
  dsimp only
  split_ifs <;> simp [voicedUpdate_tremorHistory]

theorem spectralUpdate_ring (fr : AnalysisFrame) (st : EngineState) :
    (spectralUpdate fr st).ringBuffer = st.ringBuffer ∧
    (spectralUpdate fr st).ringBufferWritePos = st.ringBufferWritePos ∧
    (spectralUpdate fr st).ringBufferFilled = st.ringBufferFilled := by
  unfold spectralUpdate
  dsimp only
  split <;> try split_ifs
  all_goals exact ⟨rfl, rfl, rfl⟩

theorem spectralUpdate_baseFields (fr : AnalysisFrame) (st : EngineState) :
    (spectralUpdate fr st).f0History = st.f0History ∧
    (spectralUpdate fr st).baselineF0Values = st.baselineF0Values ∧
    (spectralUpdate fr st).baselineEstablished = st.baselineEstablished ∧
    (spectralUpdate fr st).f0Baseline = st.f0Baseline := by
  unfold spectralUpdate
  dsimp only
  split <;> try split_ifs
  all_goals exact ⟨rfl, rfl, rfl, rfl⟩

theorem spectralUpdate_tremorHistory (fr : AnalysisFrame) (st : EngineState) :
    (spectralUpdate fr st).tremorHistory = st.tremorHistory := by
  unfold spectralUpdate
  dsimp only
  split <;> try split_ifs
  all_goals rfl

theorem speechUpdate_ring (fr : AnalysisFrame) (st : EngineState) :
    (speechUpdate fr st).ringBuffer = st.ringBuffer ∧
    (speechUpdate fr st).ringBufferWritePos = st.ringBufferWritePos ∧
    (speechUpdate fr st).ringBufferFilled = st.ringBufferFilled := by
  unfold speechUpdate
  obtain ⟨a1, a2, a3⟩ := spectralUpdate_ring fr
    (pitchUpdate fr (pauseClose { st with speechFrameCount := st.speechFrameCount + 1 }))
  obtain ⟨b1, b2, b3⟩ := pitchUpdate_ring fr
    (pauseClose { st with speechFrameCount := st.speechFrameCount + 1 })
  obtain ⟨c1, c2, c3⟩ := pauseClose_ring
    { st with speechFrameCount := st.speechFrameCount + 1 }
  exact ⟨by rw [a1, b1, c1], by rw [a2, b2, c2], by rw [a3, b3, c3]⟩

theorem speechUpdate_tremorHistory (fr : AnalysisFrame) (st : EngineState) :
    (speechUpdate fr st).tremorHistory = st.tremorHistory := by
  unfold speechUpdate
  rw [spectralUpdate_tremorHistory, pitchUpdate_tremorHistory, pauseClose_tremorHistory]

theorem silenceUpdate_ring (st : EngineState) :
    (silenceUpdate st).ringBuffer = st.ringBuffer ∧
    (silenceUpdate st).ringBufferWritePos = st.ringBufferWritePos ∧
    (silenceUpdate st).ringBufferFilled = st.ringBufferFilled := by
  unfold silenceUpdate
  dsimp only
  split_ifs <;> exact ⟨rfl, rfl, rfl⟩

theorem silenceUpdate_tremorHistory (st : EngineState) :
    (silenceUpdate st).tremorHistory = st.tremorHistory := by
  unfold silenceUpdate
  dsimp only
  split_ifs <;> rfl

theorem silenceUpdate_baseFields (st : EngineState) :
    (silenceUpdate st).f0History = st.f0History ∧
    (silenceUpdate st).baselineF0Values = st.baselineF0Values ∧
    (silenceUpdate st).baselineEstablished = st.baselineEstablished ∧
    (silenceUpdate st).f0Baseline = st.f0Baseline := by
  unfold silenceUpdate
  dsimp only
  split_ifs <;> exact ⟨rfl, rfl, rfl, rfl⟩

theorem tremorStep_ring (st : EngineState) :
    (tremorStep st).ringBuffer = st.ringBuffer ∧
    (tremorStep st).ringBufferWritePos = st.ringBufferWritePos ∧
    (tremorStep st).ringBufferFilled = st.ringBufferFilled := by
  unfold tremorStep
  split_ifs <;> (try split) <;> exact ⟨rfl, rfl, rfl⟩

theorem tremorStep_baseFields (st : EngineState) :
    (tremorStep st).f0History = st.f0History ∧
    (tremorStep st).baselineF0Values = st.baselineF0Values ∧
    (tremorStep st).baselineEstablished = st.baselineEstablished ∧
    (tremorStep st).f0Baseline = st.f0Baseline := by
  unfold tremorStep
  split_ifs <;> (try split) <;> exact ⟨rfl, rfl, rfl, rfl⟩

theorem timelineStep_ring (st : EngineState) :
    (timelineStep st).ringBuffer = st.ringBuffer ∧
    (timelineStep st).ringBufferWritePos = st.ringBufferWritePos ∧
    (timelineStep st).ringBufferFilled = st.ringBufferFilled := by
  unfold timelineStep
  split_ifs <;> exact ⟨rfl, rfl, rfl⟩

theorem timelineStep_tremorHistory (st : EngineState) :
    (timelineStep st).tremorHistory = st.tremorHistory := by
  unfold timelineStep
  split_ifs <;> rfl

theorem timelineStep_baseFields (st : EngineState) :
    (timelineStep st).f0History = st.f0History ∧
    (timelineStep st).baselineF0Values = st.baselineF0Values ∧
    (timelineStep st).baselineEstablished = st.baselineEstablished ∧
    (timelineStep st).f0Baseline = st.f0Baseline := by
  unfold timelineStep
  split_ifs <;> exact ⟨rfl, rfl, rfl, rfl⟩

theorem fillOne_baseFields (st : EngineState) (x : ℝ) :
    (fillOne st x).f0History = st.f0History ∧
    (fillOne st x).baselineF0Values = st.baselineF0Values ∧
    (fillOne st x).baselineEstablished = st.baselineEstablished ∧
    (fillOne st x).f0Baseline = st.f0Baseline ∧
    (fillOne st x).tremorHistory = st.tremorHistory := by
  unfold fillOne
  dsimp only
  split_ifs <;> exact ⟨rfl, rfl, rfl, rfl, rfl⟩

theorem fillRingBuffer_baseFields (samples : List ℝ) (st : EngineState) :
    (fillRingBuffer samples st).f0History = st.f0History ∧
    (fillRingBuffer samples st).baselineF0Values = st.baselineF0Values ∧
    (fillRingBuffer samples st).baselineEstablished = st.baselineEstablished ∧
    (fillRingBuffer samples st).f0Baseline = st.f0Baseline ∧
    (fillRingBuffer samples st).tremorHistory = st.tremorHistory := by
  induction samples generalizing st with
  | nil => exact ⟨rfl, rfl, rfl, rfl, rfl⟩
  | cons a l ih =>
    have h1 := fillOne_baseFields st a
    have h2 := ih (fillOne st a)
    simp only [fillRingBuffer, List.foldl_cons] at *
    exact ⟨h2.1.trans h1.1, h2.2.1.trans h1.2.1, h2.2.2.1.trans h1.2.2.1,
      h2.2.2.2.1.trans h1.2.2.2.1, h2.2.2.2.2.trans h1.2.2.2.2⟩

theorem frameBranch_ring (fr : AnalysisFrame) (st : EngineState) :
    (frameBranch fr st).ringBuffer = st.ringBuffer ∧
    (frameBranch fr st).ringBufferWritePos = st.ringBufferWritePos ∧
    (frameBranch fr st).ringBufferFilled = st.ringBufferFilled := by
  unfold frameBranch
  dsimp only
  split_ifs
  · obtain ⟨s1, s2, s3⟩ := speechUpdate_ring fr (frameStart fr st)
    exact ⟨s1.trans rfl, s2.trans rfl, s3.trans rfl⟩
  · obtain ⟨s1, s2, s3⟩ := silenceUpdate_ring (frameStart fr st)
    exact ⟨s1.trans rfl, s2.trans rfl, s3.trans rfl⟩

theorem frameBranch_tremorHistory (fr : AnalysisFrame) (st : EngineState) :
    (frameBranch fr st).tremorHistory = st.tremorHistory := by
  unfold frameBranch
  dsimp only
  split_ifs
  · exact (speechUpdate_tremorHistory fr (frameStart fr st)).trans rfl
  · exact (silenceUpdate_tremorHistory (frameStart fr st)).trans rfl

theorem establishBaseline_totalFrameCount (st : EngineState) :
    (establishBaseline st).totalFrameCount = st.totalFrameCount := rfl

theorem voicedUpdate_totalFrameCount (fr : AnalysisFrame) (f0 : ℝ) (st : EngineState) :
    (voicedUpdate fr f0 st).totalFrameCount = st.totalFrameCount := by
  unfold voicedUpdate
  dsimp only
  split_ifs <;> simp [establishBaseline_totalFrameCount]

theorem pitchUpdate_totalFrameCount (fr : AnalysisFrame) (st : EngineState) :
    (pitchUpdate fr st).totalFrameCount = st.totalFrameCount := by
  unfold pitchUpdate
  dsimp only
  split_ifs
  · exact voicedUpdate_totalFrameCount fr _ st
  · rfl

theorem spectralUpdate_totalFrameCount (fr : AnalysisFrame) (st : EngineState) :
    (spectralUpdate fr st).totalFrameCount = st.totalFrameCount := by
  unfold spectralUpdate
  dsimp only
  split <;> try split_ifs
  all_goals rfl

theorem speechUpdate_totalFrameCount (fr : AnalysisFrame) (st : EngineState) :
    (speechUpdate fr st).totalFrameCount = st.totalFrameCount := by
  unfold speechUpdate
  rw [spectralUpdate_totalFrameCount, pitchUpdate_totalFrameCount,
    pauseClose_totalFrameCount]

theorem silenceUpdate_totalFrameCount (st : EngineState) :
    (silenceUpdate st).totalFrameCount = st.totalFrameCount := by
  unfold silenceUpdate
  dsimp only
  split_ifs <;> rfl

theorem frameBranch_totalFrameCount (fr : AnalysisFrame) (st : EngineState) :
    (frameBranch fr st).totalFrameCount = st.totalFrameCount + 1 := by
  unfold frameBranch
  dsimp only
  split_ifs
  · exact (speechUpdate_totalFrameCount fr (frameStart fr st)).trans rfl
  · exact (silenceUpdate_totalFrameCount (frameStart fr st)).trans rfl

theorem processAudioFrame_ring (fr : AnalysisFrame) (st : EngineState) :
    (processAudioFrame fr st).ringBuffer = st.ringBuffer ∧
    (processAudioFrame fr st).ringBufferWritePos = st.ringBufferWritePos ∧
    (processAudioFrame fr st).ringBufferFilled = st.ringBufferFilled := by
  unfold processAudioFrame
  obtain ⟨t1, t2, t3⟩ := timelineStep_ring (tremorStep (frameBranch fr st))
  obtain ⟨u1, u2, u3⟩ := tremorStep_ring (frameBranch fr st)
  obtain ⟨b1, b2, b3⟩ := frameBranch_ring fr st
  exact ⟨by rw [t1, u1, b1], by rw [t2, u2, b2], by rw [t3, u3, b3]⟩

end Preservation

section RingBuffer

/-! ### The ring-buffer representation invariant -/

theorem ringInv_init : RingInv [] initState := by
  refine ⟨?_, rfl, ?_, ?_⟩
  · show (List.replicate ringBufferSize (0 : ℝ)).length = ringBufferSize
    exact List.length_replicate _ _
  · show (false = true ↔ ringBufferSize ≤ ([] : List ℝ).length)
    constructor
    · intro hh; exact absurd hh (by simp)
    · intro hh; exact absurd hh (by norm_num [ringBufferSize])
  · intro m hm
    exact absurd hm (Nat.not_lt_zero m)

theorem ringInv_fillOne {h : List ℝ} {st : EngineState} (x : ℝ) (inv : RingInv h st) :
    RingInv (h ++ [x]) (fillOne st x) := by
  obtain ⟨hlen, hpos, hfill, hget⟩ := inv
  have hcap : (0 : ℕ) < ringBufferSize := by norm_num [ringBufferSize]
  have hposlt : st.ringBufferWritePos < ringBufferSize := by
    rw [hpos]; exact Nat.mod_lt _ hcap
  have hsetlen : (st.ringBuffer.set st.ringBufferWritePos x).length = ringBufferSize := by
    simpa [List.length_set] using hlen
  have hget' : ∀ m, m < (h ++ [x]).length → (h ++ [x]).length ≤ m + ringBufferSize →
      (st.ringBuffer.set st.ringBufferWritePos x).getD (m % ringBufferSize) 0 =
        (h ++ [x]).getD m 0 := by
    intro m hm1 hm2
    simp only [List.length_append, List.length_singleton] at hm1 hm2
    rcases Nat.lt_succ_iff_lt_or_eq.mp hm1 with hmL | hmL
    · rw [listGetD_set_ne _ _ _ _ _ ?ne, listGetD_append_left _ _ _ _ hmL]
      · exact hget m hmL (by omega)
      case ne =>
        rw [hpos]
        simp only [ringBufferSize] at *
        omega
    · subst hmL
      rw [← hpos, listGetD_set_self _ _ _ _ (by rw [hlen]; exact hposlt),
        listGetD_concat_self]
  unfold fillOne
  dsimp only
  split_ifs with hw
  · refine ⟨hsetlen, ?_, ?_, hget'⟩
    · simp only [List.length_append, List.length_singleton]
      rw [hpos] at hw
      simp only [ringBufferSize] at *
      omega
    · simp only [List.length_append, List.length_singleton]
      rw [hpos] at hw
      constructor
      · intro _
        simp only [ringBufferSize] at *
        omega
      · intro _; trivial
  · refine ⟨hsetlen, ?_, ?_, hget'⟩
    · simp only [List.length_append, List.length_singleton]
      rw [hpos] at hw ⊢
      simp only [ringBufferSize] at *
      omega
    · simp only [List.length_append, List.length_singleton]
      rw [hfill, hpos] at *
      simp only [ringBufferSize] at *
      constructor <;> intro <;> omega

theorem ringInv_fillRingBuffer {h : List ℝ} {st : EngineState} (l : List ℝ)
    (inv : RingInv h st) : RingInv (h ++ l) (fillRingBuffer l st) := by
  induction l generalizing h st with
  | nil =>
    rw [List.append_nil]
    exact inv
  | cons a t ih =>
    have step := ringInv_fillOne a inv
    have h2 := ih step
    rw [List.append_assoc] at h2
    exact h2

theorem ringInv_processAudioFrame {h : List ℝ} {st : EngineState} (fr : AnalysisFrame)
    (inv : RingInv h st) : RingInv h (processAudioFrame fr st) := by
  obtain ⟨e1, e2, e3⟩ := processAudioFrame_ring fr st
  unfold RingInv at *
  rw [e1, e2, e3]
  exact inv

theorem ringInv_runFrom {h : List ℝ} {st : EngineState} (steps : List EngineStep)
    (inv : RingInv h st) : RingInv (h ++ pushedSamples steps) (runFrom st steps) := by
  induction steps generalizing h st with
  | nil =>
    rw [show pushedSamples [] = [] from rfl, List.append_nil]
    exact inv
  | cons s t ih =>
    cases s with
    | fill samples =>
      have step := @ringInv_fillRingBuffer h st samples inv
      have h2 := ih step
      rw [List.append_assoc] at h2
      exact h2
    | frame fr =>
      have step := @ringInv_processAudioFrame h st fr inv
      exact ih step

theorem ringInv_runSteps (steps : List EngineStep) :
    RingInv (pushedSamples steps) (runSteps steps) := by
  have := @ringInv_runFrom [] initState steps ringInv_init
  simpa [runSteps] using this

/-- Window extraction from any state satisfying the representation
invariant returns exactly the last `min (samples pushed) capacity` samples
in chronological order. -/
theorem tremorWindow_eq_lastN {h : List ℝ} {st : EngineState} (inv : RingInv h st) :
    tremorWindow st.ringBufferFilled st.ringBufferWritePos st.ringBuffer =
      h.drop (h.length - min h.length ringBufferSize) := by
  obtain ⟨hlen, hpos, hfill, hget⟩ := inv
  have hcap : (0 : ℕ) < ringBufferSize := by norm_num [ringBufferSize]
  have hsr2 : sampleRate * 2 = ringBufferSize := by norm_num [sampleRate, ringBufferSize]
  unfold tremorWindow availableSamples
  dsimp only
  by_cases hfull : ringBufferSize ≤ h.length
  · have hfl : st.ringBufferFilled = true := hfill.mpr hfull
    rw [hfl]
    simp only [if_pos, hsr2, min_self]
    have hmin : min h.length ringBufferSize = ringBufferSize := by omega
    rw [hmin]
    apply List.ext_getElem
    · simp [hlen]
      omega
    · intro i hi1 hi2
      simp only [List.length_map, List.length_range] at hi1
      have him : ((st.ringBufferWritePos + ringBufferSize - ringBufferSize) %
          ringBufferSize + i) % ringBufferSize = (h.length - ringBufferSize + i) %
          ringBufferSize := by
        rw [hpos]
        simp only [ringBufferSize] at *
        omega
      rw [List.getElem_map, List.getElem_range, List.getElem_drop]
      rw [← listGetD_eq_getElem h 0 _ (by omega)]
      rw [him]
      exact hget (h.length - ringBufferSize + i) (by omega) (by omega)
  · have hfl : st.ringBufferFilled = false := by
      cases hb : st.ringBufferFilled
      · rfl
      · exact absurd (hfill.mp hb) hfull
    rw [hfl]
    simp only [Bool.false_eq_true, if_false, hsr2]
    have hmin1 : min st.ringBufferWritePos ringBufferSize = h.length := by
      rw [hpos]
      simp only [ringBufferSize] at *
      omega
    have hmin2 : min h.length ringBufferSize = h.length := by omega
    rw [hmin1, hmin2, Nat.sub_self, List.drop_zero]
    apply List.ext_getElem
    · simp
    · intro i hi1 hi2
      simp only [List.length_map, List.length_range] at hi1
      rw [List.getElem_map, List.getElem_range, Nat.zero_add]
      rw [← listGetD_eq_getElem h 0 _ hi2]
      exact hget i hi2 (by omega)

/-- C1.  For every session trace (any interleaving of sample-block pushes
and processed frames, with total pushed length possibly exceeding the
96000-sample capacity), the window that `_analyzeMicroTremor` extracts
from the ring buffer equals exactly the last
`min (samples pushed) capacity` pushed samples, in chronological order,
regardless of wraparound of the write cursor. -/
theorem claim_C1_ring_window (steps : List EngineStep) :
    tremorWindow (runSteps steps).ringBufferFilled (runSteps steps).ringBufferWritePos
        (runSteps steps).ringBuffer =
      (pushedSamples steps).drop
        ((pushedSamples steps).length - min (pushedSamples steps).length ringBufferSize) :=
  tremorWindow_eq_lastN (ringInv_runSteps steps)

end RingBuffer

section BaselineFreeze

/-! ### C2: the F0 baseline is established exactly once -/

theorem baselineInv_init : BaselineInv initState := by
  refine ⟨rfl, ?_, ?_⟩
  · show (false = true ↔ BASELINE_SPEECH_FRAMES ≤ ([] : List F0Sample).length)
    constructor
    · intro hh; exact absurd hh (by simp)
    · intro hh; exact absurd hh (by norm_num [BASELINE_SPEECH_FRAMES])
  · have h : ¬(BASELINE_SPEECH_FRAMES ≤ initState.f0History.length) := by
      show ¬(150 ≤ 0)
      omega
    exact (if_neg h).symm

theorem baselineInv_of_eq {st st' : EngineState}
    (e1 : st'.f0History = st.f0History)
    (e2 : st'.baselineF0Values = st.baselineF0Values)
    (e3 : st'.baselineEstablished = st.baselineEstablished)
    (e4 : st'.f0Baseline = st.f0Baseline)
    (inv : BaselineInv st) : BaselineInv st' := by
  unfold BaselineInv at *
  rw [e1, e2, e3, e4]
  exact inv

theorem baselineInv_voicedUpdate (fr : AnalysisFrame) (f0 : ℝ) {st : EngineState}
    (inv : BaselineInv st) : BaselineInv (voicedUpdate fr f0 st) := by
  obtain ⟨hvals, hest, hbase⟩ := inv
  have hmaplen : (st.f0History.map F0Sample.f0).length = st.f0History.length :=
    List.length_map _ _
  unfold voicedUpdate establishBaseline
  dsimp only
  split_ifs with h1 h2 <;> unfold BaselineInv <;> dsimp only
  · -- baseline already established: 150 ≤ history length
    have hL : BASELINE_SPEECH_FRAMES ≤ st.f0History.length := hest.mp h1
    refine ⟨?_, ?_, ?_⟩
    · rw [hvals, List.map_append,
        List.take_append_of_le_length (by rw [hmaplen]; exact hL)]
    · simp only [List.length_append, List.length_singleton]
      exact ⟨fun _ => by omega, fun _ => h1⟩
    · rw [hbase, if_pos hL]
      simp only [List.length_append, List.length_singleton]
      rw [if_pos (show BASELINE_SPEECH_FRAMES ≤ st.f0History.length + 1 by omega),
        List.map_append,
        List.take_append_of_le_length (by rw [hmaplen]; exact hL)]
  · -- baseline newly established: the values reach 150 exactly now
    have hL : ¬BASELINE_SPEECH_FRAMES ≤ st.f0History.length := fun hc => by
      have := hest.mpr hc
      rw [this] at h1
      exact h1 rfl
    have hlenvals : st.baselineF0Values.length = st.f0History.length := by
      rw [hvals, List.length_take, hmaplen]
      omega
    have h150 : BASELINE_SPEECH_FRAMES = st.f0History.length + 1 := by
      simp only [List.length_append, List.length_singleton] at h2
      omega
    have hfull : st.baselineF0Values = st.f0History.map F0Sample.f0 := by
      rw [hvals]
      exact List.take_of_length_le (by rw [hmaplen]; omega)
    refine ⟨?_, ?_, ?_⟩
    · rw [List.map_append,
        List.take_of_length_le (by
          simp only [List.length_append, List.length_map, List.length_singleton]
          omega)]
      rw [hfull]
      simp
    · simp only [List.length_append, List.length_singleton]
      exact ⟨fun _ => by omega, fun _ => trivial⟩
    · simp only [List.length_append, List.length_singleton]
      rw [if_pos (show BASELINE_SPEECH_FRAMES ≤ st.f0History.length + 1 by omega)]
      rw [List.map_append,
        List.take_of_length_le (by
          simp only [List.length_append, List.length_map, List.length_singleton]
          omega)]
      rw [hfull]
      simp
  · -- accumulating: fewer than 150 values even after this one
    have hL : ¬BASELINE_SPEECH_FRAMES ≤ st.f0History.length := fun hc => by
      have := hest.mpr hc
      rw [this] at h1
      exact h1 rfl
    have hlenvals : st.baselineF0Values.length = st.f0History.length := by
      rw [hvals, List.length_take, hmaplen]
      omega
    have hlt : st.f0History.length + 1 < BASELINE_SPEECH_FRAMES := by
      simp only [List.length_append, List.length_singleton] at h2
      omega
    have hfull : st.baselineF0Values = st.f0History.map F0Sample.f0 := by
      rw [hvals]
      exact List.take_of_length_le (by rw [hmaplen]; omega)
    refine ⟨?_, ?_, ?_⟩
    · rw [List.map_append,
        List.take_of_length_le (by
          simp only [List.length_append, List.length_map, List.length_singleton]
          omega)]
      rw [hfull]
      simp
    · simp only [List.length_append, List.length_singleton]
      constructor
      · intro hb; exact absurd (hest.mp hb) hL
      · intro hc; exact absurd hc (by omega)
    · rw [hbase, if_neg hL]
      simp only [List.length_append, List.length_singleton]
      rw [if_neg (show ¬BASELINE_SPEECH_FRAMES ≤ st.f0History.length + 1 by omega)]

theorem baselineInv_pitchUpdate (fr : AnalysisFrame) {st : EngineState}
    (inv : BaselineInv st) : BaselineInv (pitchUpdate fr st) := by
  unfold pitchUpdate
  dsimp only
  split_ifs
  · exact baselineInv_voicedUpdate fr _ inv
  · exact inv

theorem baselineInv_speechUpdate (fr : AnalysisFrame) {st : EngineState}
    (inv : BaselineInv st) : BaselineInv (speechUpdate fr st) := by
  unfold speechUpdate
  obtain ⟨a1, a2, a3, a4⟩ := spectralUpdate_baseFields fr
    (pitchUpdate fr (pauseClose { st with speechFrameCount := st.speechFrameCount + 1 }))
  refine baselineInv_of_eq a1 a2 a3 a4 ?_
  refine baselineInv_pitchUpdate fr ?_
  obtain ⟨c1, c2, c3, c4⟩ := pauseClose_baseFields
    { st with speechFrameCount := st.speechFrameCount + 1 }
  exact baselineInv_of_eq c1 c2 c3 c4 (baselineInv_of_eq rfl rfl rfl rfl inv)

theorem baselineInv_frameBranch (fr : AnalysisFrame) {st : EngineState}
    (inv : BaselineInv st) : BaselineInv (frameBranch fr st) := by
  unfold frameBranch
  dsimp only
  split_ifs
  · exact baselineInv_speechUpdate fr (baselineInv_of_eq rfl rfl rfl rfl inv)
  · obtain ⟨s1, s2, s3, s4⟩ := silenceUpdate_baseFields (frameStart fr st)
    exact baselineInv_of_eq s1 s2 s3 s4 (baselineInv_of_eq rfl rfl rfl rfl inv)

theorem baselineInv_processAudioFrame (fr : AnalysisFrame) {st : EngineState}
    (inv : BaselineInv st) : BaselineInv (processAudioFrame fr st) := by
  unfold processAudioFrame
  obtain ⟨t1, t2, t3, t4⟩ := timelineStep_baseFields (tremorStep (frameBranch fr st))
  refine baselineInv_of_eq t1 t2 t3 t4 ?_
  obtain ⟨u1, u2, u3, u4⟩ := tremorStep_baseFields (frameBranch fr st)
  exact baselineInv_of_eq u1 u2 u3 u4 (baselineInv_frameBranch fr inv)

theorem baselineInv_runFrom {st : EngineState} (steps : List EngineStep)
    (inv : BaselineInv st) : BaselineInv (runFrom st steps) := by
  induction steps generalizing st with
  | nil => exact inv
  | cons s t ih =>
    cases s with
    | fill samples =>
      obtain ⟨e1, e2, e3, e4, _⟩ := fillRingBuffer_baseFields samples st
      exact ih (baselineInv_of_eq e1 e2 e3 e4 inv)
    | frame fr => exact ih (baselineInv_processAudioFrame fr inv)

/-! The F0 history only ever grows at the end. -/

theorem voicedUpdate_f0History (fr : AnalysisFrame) (f0 : ℝ) (st : EngineState) :
    ∃ t, (voicedUpdate fr f0 st).f0History = st.f0History ++ t := by
  unfold voicedUpdate establishBaseline
  dsimp only
  split_ifs <;> exact ⟨_, rfl⟩

theorem pitchUpdate_f0History (fr : AnalysisFrame) (st : EngineState) :
    ∃ t, (pitchUpdate fr st).f0History = st.f0History ++ t := by
  unfold pitchUpdate
  dsimp only
  split_ifs
  · exact voicedUpdate_f0History fr _ st
  · exact ⟨[], (List.append_nil _).symm⟩

theorem speechUpdate_f0History (fr : AnalysisFrame) (st : EngineState) :
    ∃ t, (speechUpdate fr st).f0History = st.f0History ++ t := by
  unfold speechUpdate
  obtain ⟨a1, _, _, _⟩ := spectralUpdate_baseFields fr
    (pitchUpdate fr (pauseClose { st with speechFrameCount := st.speechFrameCount + 1 }))
  obtain ⟨c1, _, _, _⟩ := pauseClose_baseFields
    { st with speechFrameCount := st.speechFrameCount + 1 }
  obtain ⟨t, ht⟩ := pitchUpdate_f0History fr
    (pauseClose { st with speechFrameCount := st.speechFrameCount + 1 })
  exact ⟨t, by rw [a1, ht, c1]⟩

theorem frameBranch_f0History (fr : AnalysisFrame) (st : EngineState) :
    ∃ t, (frameBranch fr st).f0History = st.f0History ++ t := by
  unfold frameBranch
  dsimp only
  split_ifs
  · obtain ⟨t, ht⟩ := speechUpdate_f0History fr (frameStart fr st)
    exact ⟨t, ht.trans rfl⟩
  · obtain ⟨s1, _, _, _⟩ := silenceUpdate_baseFields (frameStart fr st)
    refine ⟨[], ?_⟩
    rw [List.append_nil, s1]
    rfl

theorem processAudioFrame_f0History (fr : AnalysisFrame) (st : EngineState) :
    ∃ t, (processAudioFrame fr st).f0History = st.f0History ++ t := by
  unfold processAudioFrame
  obtain ⟨t1, _, _, _⟩ := timelineStep_baseFields (tremorStep (frameBranch fr st))
  obtain ⟨u1, _, _, _⟩ := tremorStep_baseFields (frameBranch fr st)
  rw [t1, u1]
  exact frameBranch_f0History fr st

theorem runFrom_f0History (steps : List EngineStep) (st : EngineState) :
    ∃ t, (runFrom st steps).f0History = st.f0History ++ t := by
  induction steps generalizing st with
  | nil => exact ⟨[], (List.append_nil _).symm⟩
  | cons s rest ih =>
    cases s with
    | fill samples =>
      obtain ⟨e1, _, _, _, _⟩ := fillRingBuffer_baseFields samples st
      obtain ⟨t, ht⟩ := ih (fillRingBuffer samples st)
      exact ⟨t, by rw [show runFrom st (.fill samples :: rest) =
        runFrom (fillRingBuffer samples st) rest from rfl, ht, e1]⟩
    | frame fr =>
      obtain ⟨t1, ht1⟩ := processAudioFrame_f0History fr st
      obtain ⟨t2, ht2⟩ := ih (processAudioFrame fr st)
      exact ⟨t1 ++ t2, by rw [show runFrom st (.frame fr :: rest) =
        runFrom (processAudioFrame fr st) rest from rfl, ht2, ht1, List.append_assoc]⟩

/-- C2.  For every session (trace of pushes and frames from a cleared
state), the baseline bookkeeping satisfies: the accumulated baseline values
are exactly the first 150 voiced F0 values; the baseline is established
exactly when at least 150 voiced F0 samples have been collected (so exactly
at the 150th voiced sample, since each frame contributes at most one); when
established, it equals the mean and the population standard deviation of
those first 150 values (`baselineOf`); and any continuation of the session
only extends the voiced F0 history, so the first 150 values — and with them
the established baseline — are never recomputed or modified afterwards,
until an explicit clear. -/
theorem claim_C2_baseline_once (steps more : List EngineStep) :
    (runSteps steps).baselineF0Values =
      ((runSteps steps).f0History.map F0Sample.f0).take BASELINE_SPEECH_FRAMES ∧
    ((runSteps steps).baselineEstablished = true ↔
      BASELINE_SPEECH_FRAMES ≤ (runSteps steps).f0History.length) ∧
    (runSteps steps).f0Baseline =
      (if BASELINE_SPEECH_FRAMES ≤ (runSteps steps).f0History.length then
        some (baselineOf
          (((runSteps steps).f0History.map F0Sample.f0).take BASELINE_SPEECH_FRAMES))
      else none) ∧
    (runSteps (steps ++ more)).f0History.take (runSteps steps).f0History.length =
      (runSteps steps).f0History := by
  obtain ⟨h1, h2, h3⟩ := @baselineInv_runFrom initState steps baselineInv_init
  refine ⟨h1, h2, h3, ?_⟩
  obtain ⟨t, ht⟩ := runFrom_f0History more (runSteps steps)
  have hsplit : runSteps (steps ++ more) = runFrom (runSteps steps) more := by
    unfold runSteps runFrom
    exact List.foldl_append _ _ _ _
  rw [hsplit, ht, List.take_left]

end BaselineFreeze

section TremorBounds

/-! ### C10: the tremor energy ratio is a genuine ratio in `[0, 1]` -/

theorem tremorResultOK_mk (s : ℕ → ℝ) (upper lowBin highBin : ℕ) (pf : ℝ) :
    tremorResultOK (some
      { energyRatio :=
          if 0 < (∑ i ∈ Finset.Ico 1 upper, s i * s i) then
            (∑ i ∈ Finset.Ico 1 upper,
                if lowBin ≤ i ∧ i ≤ highBin then s i * s i else 0) /
              (∑ i ∈ Finset.Ico 1 upper, s i * s i)
          else 0
        peakFreq := pf
        bandEnergy := ∑ i ∈ Finset.Ico 1 upper,
          if lowBin ≤ i ∧ i ≤ highBin then s i * s i else 0
        totalEnergy := ∑ i ∈ Finset.Ico 1 upper, s i * s i }) := by
  have hT : 0 ≤ ∑ i ∈ Finset.Ico 1 upper, s i * s i :=
    Finset.sum_nonneg fun i _ => mul_self_nonneg _
  have hB : 0 ≤ ∑ i ∈ Finset.Ico 1 upper,
      (if lowBin ≤ i ∧ i ≤ highBin then s i * s i else 0) :=
    Finset.sum_nonneg fun i _ => by
      split_ifs
      · exact mul_self_nonneg _
      · exact le_refl 0
  have hBT : (∑ i ∈ Finset.Ico 1 upper,
      (if lowBin ≤ i ∧ i ≤ highBin then s i * s i else 0)) ≤
      ∑ i ∈ Finset.Ico 1 upper, s i * s i :=
    Finset.sum_le_sum fun i _ => by
      split_ifs
      · exact le_refl _
      · exact mul_self_nonneg _
  unfold tremorResultOK
  dsimp only
  refine ⟨?_, ?_, hB, hBT, ?_⟩
  · split_ifs with h
    · exact div_nonneg hB hT
    · exact le_refl 0
  · split_ifs with h
    · rw [div_le_one h]
      exact hBT
    · norm_num
  · intro h0
    split_ifs with h
    · rw [h0] at h
      exact absurd h (lt_irrefl 0)
    · rfl

/-- The micro-tremor analyzer only ever produces well-formed results. -/
theorem analyzeMicroTremor_ok (filled : Bool) (writePos : ℕ) (buf : List ℝ) :
    tremorResultOK (analyzeMicroTremor filled writePos buf) := by
  unfold analyzeMicroTremor
  dsimp only
  by_cases h : (min (availableSamples filled writePos) (sampleRate * 2)) < sampleRate
  · rw [if_pos h]
    trivial
  · rw [if_neg h]
    exact tremorResultOK_mk _ _ _ _ _

/-- C10.  Every result the micro-tremor analyzer produces (for any ring
buffer state) has `energyRatio` in `[0, 1]`: the summed squared 8-12 Hz
band magnitudes are a sub-sum of the 0-20 Hz reference band sum, so
`bandEnergy ≤ totalEnergy`, and `energyRatio` is `0` when the reference
energy is `0`. -/
theorem claim_C10_tremor_ratio (filled : Bool) (writePos : ℕ) (buf : List ℝ) :
    tremorResultOK (analyzeMicroTremor filled writePos buf) :=
  analyzeMicroTremor_ok filled writePos buf

end TremorBounds

section ScoreBounds

/-! ### C3: composite scores stay in `[0, 100]` on reachable states -/

theorem round_cast_nonneg {x : ℝ} (h : 0 ≤ x) : (0 : ℝ) ≤ ((round x : ℤ) : ℝ) := by
  have hz : (0 : ℤ) ≤ round x := by
    rw [round_eq]
    exact Int.le_floor.mpr (by push_cast; linarith)
  exact_mod_cast hz

theorem tremorHistNonneg_init : tremorHistNonneg initState := by
  intro t ht
  exact absurd ht (List.not_mem_nil t)

theorem tremorHistNonneg_of_eq {st st' : EngineState}
    (e : st'.tremorHistory = st.tremorHistory)
    (inv : tremorHistNonneg st) : tremorHistNonneg st' := by
  intro t ht
  rw [e] at ht
  exact inv t ht

theorem tremorHistNonneg_tremorStep {st : EngineState}
    (inv : tremorHistNonneg st) : tremorHistNonneg (tremorStep st) := by
  unfold tremorStep
  split_ifs with hg
  · have hok := analyzeMicroTremor_ok st.ringBufferFilled st.ringBufferWritePos st.ringBuffer
    split
    next t heq =>
      intro e he
      dsimp only at he
      rcases List.mem_append.mp (mem_capPush he) with h1 | h2
      · exact inv e h1
      · rw [List.mem_singleton] at h2
        subst h2
        rw [heq] at hok
        unfold tremorResultOK at hok
        exact hok.1
    next heq => exact inv
  · exact inv

theorem tremorHistNonneg_processAudioFrame (fr : AnalysisFrame) {st : EngineState}
    (inv : tremorHistNonneg st) : tremorHistNonneg (processAudioFrame fr st) := by
  unfold processAudioFrame
  refine tremorHistNonneg_of_eq (timelineStep_tremorHistory _) ?_
  refine tremorHistNonneg_tremorStep ?_
  exact tremorHistNonneg_of_eq (frameBranch_tremorHistory fr st) inv

theorem tremorHistNonneg_runSteps (steps : List EngineStep) :
    tremorHistNonneg (runSteps steps) := by
  suffices h : ∀ (steps : List EngineStep) (st : EngineState),
      tremorHistNonneg st → tremorHistNonneg (runFrom st steps) from
    h steps initState tremorHistNonneg_init
  intro steps
  induction steps with
  | nil => exact fun st inv => inv
  | cons s rest ih =>
    intro st inv
    cases s with
    | fill samples =>
      exact ih _ (tremorHistNonneg_of_eq (fillRingBuffer_baseFields samples st).2.2.2.2 inv)
    | frame fr => exact ih _ (tremorHistNonneg_processAudioFrame fr inv)

/-! Sub-score nonnegativity. -/

theorem quickF0Score_nonneg (st : EngineState) : 0 ≤ quickF0Score st := by
  unfold quickF0Score quickF0Parts
  dsimp only
  repeat' split
  all_goals try dsimp only
  all_goals positivity

theorem quickTremorScore_nonneg {st : EngineState} (inv : tremorHistNonneg st) :
    0 ≤ quickTremorScore st := by
  have havg : 0 ≤ ((st.tremorHistory.drop (st.tremorHistory.length - 10)).map
      TremorEntry.energyRatio).sum := by
    apply List.sum_nonneg
    intro x hx
    obtain ⟨t, ht, rfl⟩ := List.mem_map.mp hx
    exact inv t (List.drop_subset _ _ ht)
  have hdiv : 0 ≤ ((st.tremorHistory.drop (st.tremorHistory.length - 10)).map
      TremorEntry.energyRatio).sum /
      ((st.tremorHistory.drop (st.tremorHistory.length - 10)).length : ℝ) :=
    div_nonneg havg (by positivity)
  unfold quickTremorScore
  dsimp only
  split_ifs with h h9
  · exact le_min (by norm_num) (round_cast_nonneg (by nlinarith))
  · exact le_min (by norm_num) (round_cast_nonneg (by nlinarith))
  · norm_num

theorem quickJitterScore_nonneg (st : EngineState) : 0 ≤ quickJitterScore st := by
  unfold quickJitterScore quickJitterParts
  dsimp only
  repeat' split
  all_goals positivity

theorem quickSpectralScore_nonneg (st : EngineState) : 0 ≤ quickSpectralScore st := by
  unfold quickSpectralScore
  dsimp only
  repeat' split
  all_goals positivity

theorem quickShimmerScore_nonneg (st : EngineState) : 0 ≤ quickShimmerScore st := by
  unfold quickShimmerScore
  dsimp only
  repeat' split
  all_goals positivity

theorem fullF0Score_nonneg (st : EngineState) : 0 ≤ fullF0Score st := by
  unfold fullF0Score fullF0DeviationPercent
  dsimp only
  repeat' split
  all_goals positivity

theorem fullTremorStats_energy_nonneg {st : EngineState} (inv : tremorHistNonneg st) :
    0 ≤ (fullTremorStats st).1 := by
  unfold fullTremorStats
  split_ifs with h
  · dsimp only
    apply div_nonneg _ (by positivity)
    apply List.sum_nonneg
    intro x hx
    obtain ⟨t, ht, rfl⟩ := List.mem_map.mp hx
    exact inv t ht
  · norm_num

theorem fullTremorScore_nonneg {st : EngineState} (inv : tremorHistNonneg st) :
    0 ≤ fullTremorScore st := by
  have h1 := fullTremorStats_energy_nonneg inv
  unfold fullTremorScore
  dsimp only
  split_ifs with h h9
  · exact le_min (by norm_num) (round_cast_nonneg (by nlinarith))
  · exact le_min (by norm_num) (round_cast_nonneg (by nlinarith))
  · norm_num

theorem fullJitterScore_nonneg (st : EngineState) : 0 ≤ fullJitterScore st := by
  unfold fullJitterScore
  positivity

theorem fullShimmerScore_nonneg (st : EngineState) : 0 ≤ fullShimmerScore st := by
  unfold fullShimmerScore
  positivity

theorem fullSpectralScore_nonneg (st : EngineState) : 0 ≤ fullSpectralScore st := by
  unfold fullSpectralScore
  repeat' split
  all_goals positivity

theorem fullVoiceStressScore_bounds {st : EngineState} (inv : tremorHistNonneg st) :
    0 ≤ fullVoiceStressScore st ∧ fullVoiceStressScore st ≤ 100 := by
  unfold fullVoiceStressScore
  constructor
  · refine le_min (by norm_num) (round_cast_nonneg ?_)
    have h1 := fullF0Score_nonneg st
    have h2 := fullTremorScore_nonneg inv
    have h3 := fullJitterScore_nonneg st
    have h4 := fullSpectralScore_nonneg st
    have h5 := fullShimmerScore_nonneg st
    nlinarith
  · exact min_le_left _ _

theorem quickAssess_bounds {st : EngineState} (inv : tremorHistNonneg st) :
    0 ≤ (quickAssess st).voiceStress ∧ (quickAssess st).voiceStress ≤ 100 := by
  unfold quickAssess
  dsimp only
  split_ifs with h
  · exact ⟨le_refl 0, by norm_num [defaultQuickResult]⟩
  · dsimp only
    constructor
    · refine le_min (by norm_num) (round_cast_nonneg ?_)
      have h1 := quickF0Score_nonneg st
      have h2 := quickTremorScore_nonneg inv
      have h3 := quickJitterScore_nonneg st
      have h4 := quickSpectralScore_nonneg st
      have h5 := quickShimmerScore_nonneg st
      nlinarith
    · exact min_le_left _ _

theorem fullAnalysis_score_bounds {st : EngineState} (inv : tremorHistNonneg st) :
    0 ≤ (fullAnalysis st).voiceStressScore ∧ (fullAnalysis st).voiceStressScore ≤ 100 := by
  unfold fullAnalysis
  dsimp only
  split
  · constructor <;> norm_num [defaultFullResult]
  · dsimp only
    exact fullVoiceStressScore_bounds inv

/-- C3.  For every reachable session state (any trace of pushed sample
blocks and processed analysis frames with arbitrary finite contents), the
composite stress score of the quick assessment (`voiceStress`) and of the
full report (`voiceStressScore`) lies within `[0, 100]`. -/
theorem claim_C3_score_range (steps : List EngineStep) :
    0 ≤ (quickAssess (runSteps steps)).voiceStress ∧
    (quickAssess (runSteps steps)).voiceStress ≤ 100 ∧
    0 ≤ (fullAnalysis (runSteps steps)).voiceStressScore ∧
    (fullAnalysis (runSteps steps)).voiceStressScore ≤ 100 := by
  have inv := tremorHistNonneg_runSteps steps
  obtain ⟨q1, q2⟩ := quickAssess_bounds inv
  obtain ⟨f1, f2⟩ := fullAnalysis_score_bounds inv
  exact ⟨q1, q2, f1, f2⟩

end ScoreBounds

section VadPitch

/-! ### C5: voice-activity detection and silent frames -/

theorem listGetD_replicate_zero (n i : ℕ) : (List.replicate n (0 : ℝ)).getD i 0 = 0 := by
  rcases lt_or_le i n with h | h
  · simp [List.getD, List.get?_eq_getElem?, List.getElem?_eq_getElem, h,
      List.getElem_replicate]
  · simp [List.getD, List.get?_eq_getElem?, List.getElem?_eq_none, h]

theorem listGetD_range_map (f : ℕ → ℝ) (n i : ℕ) (h : i < n) :
    ((List.range n).map f).getD i 0 = f i := by
  simp [List.getD, List.get?_eq_getElem?, List.getElem?_map, List.getElem?_range h]

theorem computeRMS_replicate_zero (n : ℕ) : computeRMS (List.replicate n 0) = 0 := by
  unfold computeRMS
  have hsum : (∑ i ∈ Finset.range (List.replicate n (0 : ℝ)).length,
      (List.replicate n (0 : ℝ)).getD i 0 * (List.replicate n (0 : ℝ)).getD i 0) = 0 := by
    apply Finset.sum_eq_zero
    intro i _
    rw [listGetD_replicate_zero]
    ring
  rw [hsum, zero_div, Real.sqrt_zero]

theorem detectVoiceActivity_zero (n : ℕ) :
    detectVoiceActivity (List.replicate n 0) = false := by
  unfold detectVoiceActivity
  rw [computeRMS_replicate_zero]
  rw [if_pos (by norm_num [VAD_THRESHOLD])]

theorem hannWindow_zero_getD (n i : ℕ) :
    (hannWindow (List.replicate n 0)).getD i 0 = 0 := by
  unfold hannWindow
  rcases lt_or_le i (List.replicate n (0 : ℝ)).length with h | h
  · rw [show (List.replicate n (0 : ℝ)).length = n from List.length_replicate _ _] at h ⊢
    rw [listGetD_range_map _ n i h, listGetD_replicate_zero]
    ring
  · rw [List.getD_eq_default]
    simpa using h

theorem trackFundamentalFrequency_zero (n : ℕ) :
    trackFundamentalFrequency (List.replicate n 0) = -1 := by
  unfold trackFundamentalFrequency
  dsimp only
  rw [if_pos]
  have hsum : (∑ i ∈ Finset.range (hannWindow (List.replicate n 0)).length,
      (hannWindow (List.replicate n 0)).getD i 0 *
        (hannWindow (List.replicate n 0)).getD i 0) = 0 := by
    apply Finset.sum_eq_zero
    intro i _
    rw [hannWindow_zero_getD]
    ring
  rw [hsum]
  norm_num

/-- C5.  Voice activity detection reports speaking if and only if the
frame RMS is at least the 0.015 threshold and the zero-crossing rate is
strictly between 0.02 and 0.5; in particular an all-zero frame is reported
as not-speaking, and pitch tracking on an all-zero frame returns the `-1`
"no detection" sentinel. -/
theorem claim_C5_vad_pitch (buffer : List ℝ) (n : ℕ) :
    (detectVoiceActivity buffer = true ↔
      (VAD_THRESHOLD ≤ computeRMS buffer ∧
        0.02 < zcrRateOf buffer ∧ zcrRateOf buffer < 0.5)) ∧
    detectVoiceActivity (List.replicate n 0) = false ∧
    trackFundamentalFrequency (List.replicate n 0) = -1 := by
  refine ⟨?_, detectVoiceActivity_zero n, trackFundamentalFrequency_zero n⟩
  unfold detectVoiceActivity
  dsimp only
  split_ifs with h
  · simp only [Bool.false_eq_true, false_iff]
    rintro ⟨h1, _, _⟩
    exact absurd h1 (not_le.mpr h)
  · simp only [Bool.and_eq_true, decide_eq_true_eq]
    constructor
    · rintro ⟨⟨h1, h2⟩, h3⟩
      exact ⟨h1, h2, h3⟩
    · rintro ⟨h1, h2, h3⟩
      exact ⟨⟨h1, h2⟩, h3⟩

end VadPitch

section JitterShimmer

/-! ### C7: constant histories give zero jitter and zero shimmer -/

theorem listGetD_replicate (n i : ℕ) (c : ℝ) (h : i < n) :
    (List.replicate n c).getD i 0 = c := by
  simp [List.getD, List.get?_eq_getElem?, List.getElem?_eq_getElem, h,
    List.getElem_replicate]

theorem computeJitter_replicate (n : ℕ) (c : ℝ) :
    computeJitter (List.replicate n c) = { absoluteJitter := 0, relativeJitter := 0 } := by
  unfold computeJitter
  split_ifs with h
  · rfl
  · dsimp only
    have hlen : (List.replicate n c).length = n := List.length_replicate _ _
    have hsum : (∑ i ∈ Finset.Ico 1 (List.replicate n c).length,
        |(List.replicate n c).getD i 0 - (List.replicate n c).getD (i - 1) 0|) = 0 := by
      apply Finset.sum_eq_zero
      intro i hi
      rw [Finset.mem_Ico, hlen] at hi
      rw [listGetD_replicate _ _ _ (by omega), listGetD_replicate _ _ _ (by omega)]
      simp
    rw [hsum]
    simp

theorem computeShimmer_replicate (n : ℕ) (c : ℝ) :
    computeShimmer (List.replicate n c) = { shimmerDB := 0, relativeShimmer := 0 } := by
  unfold computeShimmer
  split_ifs with h
  · rfl
  · dsimp only
    have hlen : (List.replicate n c).length = n := List.length_replicate _ _
    have hsum : (∑ i ∈ Finset.Ico 1 (List.replicate n c).length,
        |(List.replicate n c).getD i 0 - (List.replicate n c).getD (i - 1) 0|) = 0 := by
      apply Finset.sum_eq_zero
      intro i hi
      rw [Finset.mem_Ico, hlen] at hi
      rw [listGetD_replicate _ _ _ (by omega), listGetD_replicate _ _ _ (by omega)]
      simp
    have hlog : (∑ i ∈ Finset.Ico 1 (List.replicate n c).length,
        if 0 < (List.replicate n c).getD i 0 ∧ 0 < (List.replicate n c).getD (i - 1) 0
        then |20 * Real.logb 10 ((List.replicate n c).getD i 0 /
          (List.replicate n c).getD (i - 1) 0)|
        else 0) = 0 := by
      apply Finset.sum_eq_zero
      intro i hi
      rw [Finset.mem_Ico, hlen] at hi
      rw [listGetD_replicate _ _ _ (by omega), listGetD_replicate _ _ _ (by omega)]
      split_ifs with hc
      · rw [div_self (ne_of_gt hc.1), Real.logb_one]
        simp
      · rfl
    rw [hsum, hlog]
    simp

/-- C7.  For every constant pitch-period history of length at least 2 the
relative jitter is exactly 0; for every constant positive amplitude history
of length at least 2 the relative shimmer is exactly 0; with fewer than 2
entries both computations return the zero result. -/
theorem claim_C7_constant_zero (n : ℕ) (c : ℝ) (l : List ℝ) :
    (2 ≤ n → (computeJitter (List.replicate n c)).relativeJitter = 0) ∧
    (2 ≤ n → 0 < c → (computeShimmer (List.replicate n c)).relativeShimmer = 0) ∧
    (l.length < 2 →
      computeJitter l = { absoluteJitter := 0, relativeJitter := 0 } ∧
      computeShimmer l = { shimmerDB := 0, relativeShimmer := 0 }) := by
  refine ⟨fun _ => ?_, fun _ _ => ?_, fun hl => ⟨?_, ?_⟩⟩
  · rw [computeJitter_replicate]
  · rw [computeShimmer_replicate]
  · unfold computeJitter
    rw [if_pos hl]
  · unfold computeShimmer
    rw [if_pos hl]

/-- Witness for C7 at concrete inputs: constant periods `[240, 240]`,
constant amplitudes `[0.1, 0.1]`, and the empty history. -/
theorem claim_C7_witness :
    (computeJitter (List.replicate 2 (240 : ℝ))).relativeJitter = 0 ∧
    (computeShimmer (List.replicate 2 (0.1 : ℝ))).relativeShimmer = 0 ∧
    (computeJitter ([] : List ℝ) = { absoluteJitter := 0, relativeJitter := 0 } ∧
      computeShimmer ([] : List ℝ) = { shimmerDB := 0, relativeShimmer := 0 }) :=
  ⟨(claim_C7_constant_zero 2 240 []).1 (by norm_num),
   (claim_C7_constant_zero 2 0.1 []).2.1 (by norm_num) (by norm_num),
   (claim_C7_constant_zero 2 240 []).2.2 (by norm_num)⟩

end JitterShimmer

section InsufficientSpeech

/-! ### C9: too little speech yields the neutral default report -/

/-- C9.  For every session state with fewer than 10 observed speech frames,
`fullAnalysis` returns the default neutral report: composite score 0,
confidence 0, the "Insufficient speech data" / "Insufficient data"
assessments, the single "INSUFFICIENT SPEECH" indicator and an empty
timeline.  (`fullAnalysis` is a total Lean function, so no exception can be
raised on this path or any other.) -/
theorem claim_C9_default_report (st : EngineState) (h : st.speechFrameCount < 10) :
    (fullAnalysis st).voiceStressScore = 0 ∧
    (fullAnalysis st).confidenceLevel = 0 ∧
    (fullAnalysis st).fundamentalFrequency.assessment = "Insufficient speech data" ∧
    (fullAnalysis st).microTremor.assessment = "Insufficient data" ∧
    (fullAnalysis st).voiceQuality.jitterAssessment = "No data" ∧
    (fullAnalysis st).spectralAnalysis.assessment = "Insufficient data" ∧
    (fullAnalysis st).indicators = [{ label := "INSUFFICIENT SPEECH", color := "yellow" }] ∧
    (fullAnalysis st).vsaTimeline = [] := by
  unfold fullAnalysis
  dsimp only
  rw [if_pos h]
  unfold defaultFullResult
  exact ⟨rfl, rfl, rfl, rfl, rfl, rfl, rfl, rfl⟩

/-- Witness for C9: the freshly cleared state has zero speech frames. -/
theorem claim_C9_witness :
    (fullAnalysis initState).voiceStressScore = 0 ∧
    (fullAnalysis initState).confidenceLevel = 0 ∧
    (fullAnalysis initState).fundamentalFrequency.assessment = "Insufficient speech data" ∧
    (fullAnalysis initState).microTremor.assessment = "Insufficient data" ∧
    (fullAnalysis initState).voiceQuality.jitterAssessment = "No data" ∧
    (fullAnalysis initState).spectralAnalysis.assessment = "Insufficient data" ∧
    (fullAnalysis initState).indicators = [{ label := "INSUFFICIENT SPEECH", color := "yellow" }] ∧
    (fullAnalysis initState).vsaTimeline = [] :=
  claim_C9_default_report initState (by show (0 : ℕ) < 10; norm_num)

end InsufficientSpeech

section F0Assessment

/-! ### C8: the "High Stress" F0 assessment -/

/-- C8.  With at least 10 speech frames, an established baseline and at
least one post-baseline F0 sample: the report's F0 assessment reads
"High Stress" exactly when the absolute percent deviation of the
post-baseline mean F0 from the baseline mean exceeds 15; and if every
post-baseline F0 sample equals 1.2 times the (positive) baseline mean, the
deviation is exactly 20 %, the F0-deviation sub-score saturates at 100 and
the assessment is "High Stress". -/
theorem claim_C8_high_stress (st : EngineState) (b : Baseline)
    (h10 : 10 ≤ st.speechFrameCount)
    (hest : st.baselineEstablished = true)
    (hb : st.f0Baseline = some b)
    (hpost : 0 < (st.f0History.drop BASELINE_SPEECH_FRAMES).length) :
    ((fullAnalysis st).fundamentalFrequency.assessment = "High Stress" ↔
      15 < fullF0DeviationPercent st) ∧
    ((∀ smp ∈ st.f0History.drop BASELINE_SPEECH_FRAMES, smp.f0 = 1.2 * b.meanF0) →
      0 < b.meanF0 →
      fullF0DeviationPercent st = 20 ∧ fullF0Score st = 100 ∧
      (fullAnalysis st).fundamentalFrequency.assessment = "High Stress") := by
  have hassess : (fullAnalysis st).fundamentalFrequency.assessment = fullF0Assessment st := by
    unfold fullAnalysis
    dsimp only
    rw [if_neg (not_lt.mpr h10)]
  have hiff : (fullAnalysis st).fundamentalFrequency.assessment = "High Stress" ↔
      15 < fullF0DeviationPercent st := by
    rw [hassess]
    unfold fullF0Assessment
    split_ifs with h1 h2
    · simp only [true_iff]
      exact h1
    · constructor
      · intro hc; exact absurd hc (by decide)
      · intro hc; exact absurd hc h1
    · constructor
      · intro hc; exact absurd hc (by decide)
      · intro hc; exact absurd hc h1
  refine ⟨hiff, fun hall hm => ?_⟩
  have hpct : fullF0DeviationPercent st = 20 := by
    unfold fullF0DeviationPercent
    rw [hb]
    dsimp only
    rw [if_pos hest, if_pos hpost]
    have hmap : (st.f0History.drop BASELINE_SPEECH_FRAMES).map F0Sample.f0 =
        List.replicate (st.f0History.drop BASELINE_SPEECH_FRAMES).length (1.2 * b.meanF0) := by
      apply List.eq_replicate_iff.2
      refine ⟨List.length_map _ _, ?_⟩
      intro x hx
      obtain ⟨smp, hsmp, rfl⟩ := List.mem_map.mp hx
      exact hall smp hsmp
    rw [hmap, List.sum_replicate, nsmul_eq_mul]
    have hlen : ((st.f0History.drop BASELINE_SPEECH_FRAMES).length : ℝ) ≠ 0 := by
      exact_mod_cast Nat.pos_iff_ne_zero.mp hpost
    rw [mul_div_cancel_left₀ _ hlen]
    have : (1.2 * b.meanF0 - b.meanF0) / b.meanF0 * 100 = 20 := by
      field_simp
      ring
    rw [this]
    norm_num
  have hscore : fullF0Score st = 100 := by
    unfold fullF0Score
    rw [hpct]
    norm_num
  exact ⟨hpct, hscore, hiff.mpr (by rw [hpct]; norm_num)⟩

/-- Witness for C8: a 200 Hz baseline with one post-baseline sample at
240 Hz (1.2 times the baseline mean). -/
theorem claim_C8_witness :
    fullF0DeviationPercent shiftedPitchState = 20 ∧
    fullF0Score shiftedPitchState = 100 ∧
    (fullAnalysis shiftedPitchState).fundamentalFrequency.assessment = "High Stress" := by
  have hd : shiftedPitchState.f0History.drop BASELINE_SPEECH_FRAMES =
      [{ time := 0, f0 := 240, amplitude := 1 }] := by
    show (List.replicate 150 ({ time := 0, f0 := 200, amplitude := 1 } : F0Sample) ++
      [({ time := 0, f0 := 240, amplitude := 1 } : F0Sample)]).drop BASELINE_SPEECH_FRAMES = _
    rw [show BASELINE_SPEECH_FRAMES = (List.replicate 150
      ({ time := 0, f0 := 200, amplitude := 1 } : F0Sample)).length from
      (List.length_replicate _ _).symm]
    exact List.drop_left _ _
  refine (claim_C8_high_stress shiftedPitchState { meanF0 := 200, sdF0 := 0 }
      (by show (10 : ℕ) ≤ 10; norm_num) rfl rfl
      (by rw [hd]; norm_num)).2 ?_ (by norm_num)
  intro smp hsmp
  rw [hd, List.mem_singleton] at hsmp
  subst hsmp
  norm_num

end F0Assessment

section TremorGate

/-! ### C6: when the micro-tremor analysis runs -/

theorem analyzeMicroTremor_none_iff (filled : Bool) (writePos : ℕ) (buf : List ℝ) :
    analyzeMicroTremor filled writePos buf = none ↔
      availableSamples filled writePos < sampleRate := by
  have hmin : (min (availableSamples filled writePos) (sampleRate * 2) < sampleRate) ↔
      availableSamples filled writePos < sampleRate := by omega
  unfold analyzeMicroTremor
  dsimp only
  split_ifs with h
  · simp only [true_iff]
    exact hmin.mp h
  · simp only [reduceCtorEq, false_iff, not_lt]
    have := not_lt.mp h
    omega

/-- When the gate of the tremor step is closed (buffer not wrapped and at
most one second written), the frame appends no tremor snapshot. -/
theorem tremorGate_closed {st : EngineState} (fr : AnalysisFrame)
    (hf : st.ringBufferFilled = false) (hle : st.ringBufferWritePos ≤ sampleRate) :
    (processAudioFrame fr st).tremorHistory = st.tremorHistory := by
  unfold processAudioFrame
  rw [timelineStep_tremorHistory]
  obtain ⟨_, b2, b3⟩ := frameBranch_ring fr st
  have hth := frameBranch_tremorHistory fr st
  unfold tremorStep
  rw [if_neg ?hc]
  · exact hth
  case hc =>
    rw [b2, b3, hf]
    simp only [Bool.false_eq_true, false_or, not_lt]
    exact hle

/-- When the gate of the tremor step is open (buffer wrapped, or strictly
more than one second written), the analyzer returns a snapshot and it is
appended (with the incremented frame counter as its time stamp). -/
theorem tremorGate_open {st : EngineState} (fr : AnalysisFrame)
    (hg : st.ringBufferFilled = true ∨ sampleRate < st.ringBufferWritePos) :
    ∃ t, analyzeMicroTremor st.ringBufferFilled st.ringBufferWritePos st.ringBuffer =
        some t ∧
      (processAudioFrame fr st).tremorHistory =
        capPush 300 st.tremorHistory
          { time := st.totalFrameCount + 1, energyRatio := t.energyRatio
            peakFreq := t.peakFreq, bandEnergy := t.bandEnergy
            totalEnergy := t.totalEnergy } := by
  have havail : ¬availableSamples st.ringBufferFilled st.ringBufferWritePos < sampleRate := by
    unfold availableSamples
    rcases hg with hg | hg
    · rw [hg]
      simp only [if_true]
      norm_num [ringBufferSize, sampleRate]
    · have : st.ringBufferFilled = true ∨ st.ringBufferFilled = false := by
        cases st.ringBufferFilled
        · exact Or.inr rfl
        · exact Or.inl rfl
      rcases this with hf | hf <;> rw [hf]
      · simp only [if_true]
        norm_num [ringBufferSize, sampleRate]
      · simp only [Bool.false_eq_true, if_false]
        omega
  cases hAn : analyzeMicroTremor st.ringBufferFilled st.ringBufferWritePos st.ringBuffer with
  | none => exact absurd ((analyzeMicroTremor_none_iff _ _ _).mp hAn) havail
  | some t =>
    refine ⟨t, rfl, ?_⟩
    unfold processAudioFrame
    rw [timelineStep_tremorHistory]
    obtain ⟨b1, b2, b3⟩ := frameBranch_ring fr st
    have hth := frameBranch_tremorHistory fr st
    have htc := frameBranch_totalFrameCount fr st
    unfold tremorStep
    rw [if_pos ?hc]
    case hc =>
      rw [b2, b3]
      rcases hg with hg | hg
      · exact Or.inl hg
      · exact Or.inr hg
    rw [b1, b2, b3, hAn]
    dsimp only
    rw [hth, htc]

/-- C6 (amended).  The micro-tremor analysis runs on a processed frame if
and only if the ring buffer has wrapped or *strictly more* than one
sampleRate worth of samples has been written (at exactly one second
buffered the gate stays closed); when it runs it appends a snapshot; the
analyzer itself returns `null` exactly when fewer than `sampleRate`
samples are available; and the analysis window holds
`min(available, 2·sampleRate)` samples — up to 2 seconds when available. -/
theorem claim_C6_tremor_schedule (st : EngineState) (fr : AnalysisFrame) :
    (st.ringBufferFilled = false → st.ringBufferWritePos ≤ sampleRate →
      (processAudioFrame fr st).tremorHistory = st.tremorHistory) ∧
    (st.ringBufferFilled = true ∨ sampleRate < st.ringBufferWritePos →
      ∃ t, analyzeMicroTremor st.ringBufferFilled st.ringBufferWritePos st.ringBuffer =
          some t ∧
        (processAudioFrame fr st).tremorHistory =
          capPush 300 st.tremorHistory
            { time := st.totalFrameCount + 1, energyRatio := t.energyRatio
              peakFreq := t.peakFreq, bandEnergy := t.bandEnergy
              totalEnergy := t.totalEnergy }) ∧
    (analyzeMicroTremor st.ringBufferFilled st.ringBufferWritePos st.ringBuffer = none ↔
      availableSamples st.ringBufferFilled st.ringBufferWritePos < sampleRate) ∧
    (tremorWindow st.ringBufferFilled st.ringBufferWritePos st.ringBuffer).length =
      min (availableSamples st.ringBufferFilled st.ringBufferWritePos) (sampleRate * 2) := by
  refine ⟨fun hf hle => tremorGate_closed fr hf hle, fun hg => tremorGate_open fr hg,
    analyzeMicroTremor_none_iff _ _ _, ?_⟩
  unfold tremorWindow
  simp

/-- Witness for C6: at exactly one second buffered nothing is appended,
while a wrapped (2 s) buffer produces and appends a snapshot. -/
theorem claim_C6_witness :
    ((processAudioFrame zeroFrame oneSecondState).tremorHistory =
      oneSecondState.tremorHistory) ∧
    (∃ t, analyzeMicroTremor filledRingState.ringBufferFilled
        filledRingState.ringBufferWritePos filledRingState.ringBuffer = some t ∧
      (processAudioFrame zeroFrame filledRingState).tremorHistory =
        capPush 300 filledRingState.tremorHistory
          { time := filledRingState.totalFrameCount + 1, energyRatio := t.energyRatio
            peakFreq := t.peakFreq, bandEnergy := t.bandEnergy
            totalEnergy := t.totalEnergy }) :=
  ⟨(claim_C6_tremor_schedule oneSecondState zeroFrame).1 rfl
      (by show (48000 : ℕ) ≤ 48000; norm_num),
   (claim_C6_tremor_schedule filledRingState zeroFrame).2.1 (Or.inl rfl)⟩

/-- Counterexample to C6 as stated: a ring buffer holding exactly one
second of audio (48000 samples = one sampleRate worth, at least 1 s of
audio) on which a processed frame appends no tremor snapshot — the gate
requires *strictly more* than `sampleRate` samples. -/
theorem claim_C6_counterexample :
    sampleRate ≤ availableSamples oneSecondState.ringBufferFilled
      oneSecondState.ringBufferWritePos ∧
    (processAudioFrame zeroFrame oneSecondState).tremorHistory = [] := by
  constructor
  · show sampleRate ≤ 48000
    norm_num [sampleRate]
  · rw [tremorGate_closed zeroFrame rfl (by show (48000 : ℕ) ≤ 48000; norm_num)]
    rfl

end TremorGate

section CompositeFormula

/-! ### C4: the composite weighted-sum formula (with rounding) -/

theorem quickF0Score_eleven : quickF0Score elevenVoicedState = 0 := by
  unfold quickF0Score quickF0Parts
  rw [show elevenVoicedState.f0Baseline = none from rfl]
  split_ifs <;> rfl

theorem quickTremorScore_eleven : quickTremorScore elevenVoicedState = 0 := by
  unfold quickTremorScore
  rw [show elevenVoicedState.tremorHistory = [] from rfl]
  norm_num

theorem quickJitterScore_eleven : quickJitterScore elevenVoicedState = 80 := by
  unfold quickJitterScore quickJitterParts
  rw [show elevenVoicedState.pitchPeriods = List.replicate 11 (240 : ℝ) from rfl,
    computeJitter_replicate]
  rw [if_pos (by rw [List.length_replicate]; norm_num)]
  dsimp only
  have habs : |(0 : ℝ) - 1.0| * 80 = 80 := by
    rw [show ((0 : ℝ) - 1.0) = -1 by norm_num, abs_neg, abs_one]
    norm_num
  rw [habs, min_eq_right (by norm_num)]

theorem quickSpectralScore_eleven : quickSpectralScore elevenVoicedState = 0 := rfl

theorem quickShimmerScore_eleven : quickShimmerScore elevenVoicedState = 45 := by
  unfold quickShimmerScore
  rw [show elevenVoicedState.cycleAmplitudes = List.replicate 11 (0.1 : ℝ) from rfl,
    computeShimmer_replicate]
  rw [if_pos (by rw [List.length_replicate]; norm_num)]
  dsimp only
  have habs : |(0 : ℝ) - 3.0| * 15 = 45 := by
    rw [show ((0 : ℝ) - 3.0) = -3 by norm_num, abs_neg,
      show |(3 : ℝ)| = 3 from abs_of_nonneg (by norm_num)]
    norm_num
  rw [habs, min_eq_right (by norm_num)]

/-- Counterexample to C4 as stated: at a session state with eleven
constant voiced frames (constant period 240, constant amplitude 0.1, no
baseline), the raw weighted sum of the five sub-scores is
`0.20·80 + 0.10·45 = 20.5`, while the quick assessment reports the rounded
value 21 — the composite does not equal the weighted sum. -/
theorem claim_C4_counterexample :
    (quickAssess elevenVoicedState).voiceStress ≠
      quickF0Score elevenVoicedState * 0.30 +
      quickTremorScore elevenVoicedState * 0.25 +
      quickJitterScore elevenVoicedState * 0.20 +
      quickSpectralScore elevenVoicedState * 0.15 +
      quickShimmerScore elevenVoicedState * 0.10 := by
  have hsum : quickF0Score elevenVoicedState * 0.30 +
      quickTremorScore elevenVoicedState * 0.25 +
      quickJitterScore elevenVoicedState * 0.20 +
      quickSpectralScore elevenVoicedState * 0.15 +
      quickShimmerScore elevenVoicedState * 0.10 = 20.5 := by
    rw [quickF0Score_eleven, quickTremorScore_eleven, quickJitterScore_eleven,
      quickSpectralScore_eleven, quickShimmerScore_eleven]
    norm_num
  have hvs : (quickAssess elevenVoicedState).voiceStress = 21 := by
    unfold quickAssess
    rw [if_neg (show ¬(elevenVoicedState.totalFrameCount < 5) by
      show ¬(11 < 5); norm_num)]
    dsimp only
    rw [hsum]
    rw [show round (20.5 : ℝ) = 21 by norm_num [round_eq]]
    rw [min_eq_right (by norm_num)]
    norm_num
  rw [hvs, hsum]
  norm_num

/-- C4 (amended).  The composite stress score equals the weighted sum
`0.30·F0 + 0.25·tremor + 0.20·jitter + 0.15·spectral + 0.10·shimmer` of
the five sub-scores *rounded to the nearest integer and clamped at 100*
(`Math.min(100, Math.round(·))`), in both the quick assessment (past its
5-frame warm-up) and the full report (past its 10-speech-frame minimum). -/
theorem claim_C4_composite_rounded (st : EngineState) :
    (5 ≤ st.totalFrameCount →
      (quickAssess st).voiceStress = min 100 ((round
        (quickF0Score st * 0.30 + quickTremorScore st * 0.25 +
         quickJitterScore st * 0.20 + quickSpectralScore st * 0.15 +
         quickShimmerScore st * 0.10) : ℤ) : ℝ)) ∧
    (10 ≤ st.speechFrameCount →
      (fullAnalysis st).voiceStressScore = min 100 ((round
        (fullF0Score st * 0.30 + fullTremorScore st * 0.25 +
         fullJitterScore st * 0.20 + fullSpectralScore st * 0.15 +
         fullShimmerScore st * 0.10) : ℤ) : ℝ)) := by
  constructor
  · intro h
    unfold quickAssess
    rw [if_neg (not_lt.mpr h)]
  · intro h
    unfold fullAnalysis
    dsimp only
    rw [if_neg (not_lt.mpr h)]
    rfl

/-- Witness for C4 (amended) at the eleven-voiced-frames state. -/
theorem claim_C4_witness :
    ((quickAssess elevenVoicedState).voiceStress = min 100 ((round
      (quickF0Score elevenVoicedState * 0.30 + quickTremorScore elevenVoicedState * 0.25 +
       quickJitterScore elevenVoicedState * 0.20 + quickSpectralScore elevenVoicedState * 0.15 +
       quickShimmerScore elevenVoicedState * 0.10) : ℤ) : ℝ)) ∧
    ((fullAnalysis elevenVoicedState).voiceStressScore = min 100 ((round
      (fullF0Score elevenVoicedState * 0.30 + fullTremorScore elevenVoicedState * 0.25 +
       fullJitterScore elevenVoicedState * 0.20 + fullSpectralScore elevenVoicedState * 0.15 +
       fullShimmerScore elevenVoicedState * 0.10) : ℤ) : ℝ)) :=
  ⟨(claim_C4_composite_rounded elevenVoicedState).1 (by show (5 : ℕ) ≤ 11; norm_num),
   (claim_C4_composite_rounded elevenVoicedState).2 (by show (10 : ℕ) ≤ 11; norm_num)⟩

end CompositeFormula




